import Mathlib

/-!
Shallow embedding of `src/mapaction_rds_dashboard/app.py` (the final variant of the
rolling-data-scramble dashboard), together with theorems checking the design
specification's claims against it.

Python exceptions are modelled with `Except PyError`; Python dicts (string keyed,
insertion ordered) are modelled as association lists with Python's assignment
semantics (`dictSet`: overwrite in place, append when the key is new).
Filesystem reads are modelled by passing the parsed JSON documents as values;
a missing path or missing file is a dedicated constructor of the relevant
source type.
-/

namespace Rds

/-- Python exception kinds that the embedded code paths can raise. -/
inductive PyError
  | operationInvalid
  | mapProductInvalid
  | fileNotFound
  | keyError
  | indexError
  | valueError
  | attributeError
deriving DecidableEq, Repr

/-- EvaluationResult enumeration; `auto()` assigns 1, 2, ... in declaration order,
so severity increases with declaration order. -/
inductive EvaluationResult
  | NOT_EVALUATED
  | PASS
  | PASS_WITH_WARNINGS
  | FAIL
  | ERROR
deriving DecidableEq, Repr, Fintype

/-- Integer value assigned by `auto()` to each `EvaluationResult` member. -/
def EvaluationResult.value : EvaluationResult → Nat
  | .NOT_EVALUATED => 1
  | .PASS => 2
  | .PASS_WITH_WARNINGS => 3
  | .FAIL => 4
  | .ERROR => 5

/-- Python `EvaluationResult.<member>.name`. -/
def EvaluationResult.name : EvaluationResult → String
  | .NOT_EVALUATED => "NOT_EVALUATED"
  | .PASS => "PASS"
  | .PASS_WITH_WARNINGS => "PASS_WITH_WARNINGS"
  | .FAIL => "FAIL"
  | .ERROR => "ERROR"

/-- All members of `EvaluationResult`, in declaration order. -/
def EvaluationResult.all : List EvaluationResult :=
  [.NOT_EVALUATED, .PASS, .PASS_WITH_WARNINGS, .FAIL, .ERROR]

/-- Python `EvaluationResult[name]` member lookup by name (`none` models KeyError). -/
def EvaluationResult.ofName (s : String) : Option EvaluationResult :=
  EvaluationResult.all.find? (fun r => r.name = s)

/-- MapChefError enumeration; each member's value is the human readable MapChef
error message it is matched against. -/
inductive MapChefError
  | LAYER_DATASOURCE_NONE
  | LAYER_DATASOURCE_MULTIPLE
  | LAYER_SCHEMA_INVALID
  | MAPCHEF_OUTPUT_MISSING
deriving DecidableEq, Repr, Fintype

/-- String value of each `MapChefError` member. -/
def MapChefError.value : MapChefError → String
  | .LAYER_DATASOURCE_NONE => "Unable to find dataset for this layer"
  | .LAYER_DATASOURCE_MULTIPLE => "Found multiple datasets which match this layer"
  | .LAYER_SCHEMA_INVALID => "Data schema check failed"
  | .MAPCHEF_OUTPUT_MISSING => "MAPCHEF_OUTPUT_MISSING"

/-- All members of `MapChefError`, in declaration order. -/
def MapChefError.all : List MapChefError :=
  [.LAYER_DATASOURCE_NONE, .LAYER_DATASOURCE_MULTIPLE, .LAYER_SCHEMA_INVALID,
   .MAPCHEF_OUTPUT_MISSING]

/-- Python `MapChefError(message)`: enum lookup by value; an unmatched message
raises ValueError (the spec calls this condition `UnknownErrorKind`). -/
def mapChefErrorOfValue (message : String) : Except PyError MapChefError :=
  match MapChefError.all.find? (fun e => e.value = message) with
  | some e => .ok e
  | none => .error .valueError

/-- MapLayer: a layer id together with its classified errors. -/
structure MapLayer where
  layer_id : String
  errors : List MapChefError
deriving DecidableEq, Repr

/-- MapLayer._parse_error_messages: classify every message in encounter order;
the first unrecognised message aborts with ValueError. -/
def parse_error_messages : List String → Except PyError (List MapChefError)
  | [] => .ok []
  | m :: rest =>
    match mapChefErrorOfValue m with
    | .error e => .error e
    | .ok err =>
      match parse_error_messages rest with
      | .error e => .error e
      | .ok l => .ok (err :: l)

/-- MapLayer.__init__: stores the layer id and eagerly parses the error messages. -/
def MapLayer.init (layer_id : String) (error_messages : List String) :
    Except PyError MapLayer :=
  match parse_error_messages error_messages with
  | .ok errors => .ok ⟨layer_id, errors⟩
  | .error e => .error e

/-- Evaluation: the result cell for one (operation, layer) pair. -/
structure Evaluation where
  operation_id : String
  layer : MapLayer
  result : EvaluationResult
deriving DecidableEq, Repr

/-- Evaluation.__init__: stores the pair and starts at NOT_EVALUATED. -/
def Evaluation.init (operation_id : String) (layer : MapLayer) : Evaluation :=
  ⟨operation_id, layer, .NOT_EVALUATED⟩

/-- Evaluation.error_mapping: the fixed error-to-result table. -/
def error_mapping : MapChefError → EvaluationResult
  | .MAPCHEF_OUTPUT_MISSING => .FAIL
  | .LAYER_DATASOURCE_NONE => .FAIL
  | .LAYER_DATASOURCE_MULTIPLE => .PASS_WITH_WARNINGS
  | .LAYER_SCHEMA_INVALID => .PASS_WITH_WARNINGS

/-- Evaluation.evaluate: PASS when the layer has no errors, otherwise fold
over the errors keeping the strictly more significant mapped result. -/
def Evaluation.evaluate (e : Evaluation) : Evaluation :=
  let start := if e.layer.errors.length = 0 then EvaluationResult.PASS else e.result
  let final := e.layer.errors.foldl
    (fun acc err =>
      let result := error_mapping err
      if result.value > acc.value then result else acc) start
  { e with result := final }

/-- Binary strictly-more-significant-wins reduction used by `evaluate`
and the aggregation code. -/
def severityMax (a b : EvaluationResult) : EvaluationResult :=
  if b.value > a.value then b else a

theorem severityMax_def (a b : EvaluationResult) :
    severityMax a b = if b.value > a.value then b else a := rfl

theorem evaluate_step_eq (acc : EvaluationResult) (err : MapChefError) :
    (let result := error_mapping err;
      if result.value > acc.value then result else acc)
      = severityMax acc (error_mapping err) := rfl

theorem value_injective :
    ∀ a b : EvaluationResult, a.value = b.value → a = b := by decide

theorem severityMax_right_comm :
    ∀ z x y : EvaluationResult,
      severityMax (severityMax z x) y = severityMax (severityMax z y) x := by decide

theorem le_value_severityMax_left (a b : EvaluationResult) :
    a.value ≤ (severityMax a b).value := by
  unfold severityMax; split <;> omega

theorem le_value_severityMax_right (a b : EvaluationResult) :
    b.value ≤ (severityMax a b).value := by
  unfold severityMax; split <;> omega

theorem foldl_severityMax_start_le (l : List EvaluationResult) :
    ∀ a : EvaluationResult, a.value ≤ (l.foldl severityMax a).value := by
  induction l with
  | nil => intro a; simp
  | cons x xs ih =>
    intro a
    calc a.value ≤ (severityMax a x).value := le_value_severityMax_left a x
      _ ≤ ((x :: xs).foldl severityMax a).value := by
          simpa using ih (severityMax a x)

theorem foldl_severityMax_mem_le (l : List EvaluationResult) :
    ∀ a x, x ∈ l → x.value ≤ (l.foldl severityMax a).value := by
  induction l with
  | nil => intro a x hx; cases hx
  | cons y ys ih =>
    intro a x hx
    rcases List.mem_cons.mp hx with h | h
    · subst h
      calc x.value ≤ (severityMax a x).value := le_value_severityMax_right a x
        _ ≤ ((x :: ys).foldl severityMax a).value := by
            simpa using foldl_severityMax_start_le ys (severityMax a x)
    · simpa using ih (severityMax a y) x h

theorem foldl_severityMax_mem (l : List EvaluationResult) :
    ∀ a, l.foldl severityMax a = a ∨ l.foldl severityMax a ∈ l := by
  induction l with
  | nil => intro a; left; rfl
  | cons x xs ih =>
    intro a
    have hstep : severityMax a x = a ∨ severityMax a x = x := by
      unfold severityMax; split
      · right; rfl
      · left; rfl
    rcases ih (severityMax a x) with h | h
    · rcases hstep with h' | h'
      · left; simpa [h'] using h
      · right; simp only [List.foldl_cons] at *
        rw [h, h']; exact List.mem_cons_self x xs
    · right; simp only [List.foldl_cons]
      exact List.mem_cons_of_mem x h

theorem evaluate_result_eq (opid : String) (layer : MapLayer) :
    (Evaluation.init opid layer).evaluate.result
      = (layer.errors.map error_mapping).foldl severityMax
          (if layer.errors.length = 0 then .PASS else .NOT_EVALUATED) := by
  simp only [Evaluation.evaluate, Evaluation.init, List.foldl_map]
  rfl

theorem error_mapping_cases (err : MapChefError) :
    error_mapping err = .PASS_WITH_WARNINGS ∨ error_mapping err = .FAIL := by
  cases err <;> simp [error_mapping]

theorem evaluate_nonempty_mem (opid : String) (layer : MapLayer)
    (h : layer.errors ≠ []) :
    (Evaluation.init opid layer).evaluate.result ∈ layer.errors.map error_mapping := by
  rw [evaluate_result_eq]
  have hlen : ¬layer.errors.length = 0 := by
    simpa using h
  rw [if_neg hlen]
  rcases foldl_severityMax_mem (layer.errors.map error_mapping) .NOT_EVALUATED
    with hfold | hfold
  · exfalso
    obtain ⟨e, rest, hcons⟩ := List.exists_cons_of_ne_nil h
    have hmem : error_mapping e ∈ layer.errors.map error_mapping := by
      rw [hcons]; simp
    have hle := foldl_severityMax_mem_le (layer.errors.map error_mapping)
      .NOT_EVALUATED (error_mapping e) hmem
    rw [hfold] at hle
    rcases error_mapping_cases e with hc | hc <;>
      simp [hc, EvaluationResult.value] at hle
  · exact hfold

/-- Claim C1: for a layer with classified error kinds E, `evaluate` on a freshly
initialised Evaluation yields PASS iff E is empty; otherwise it yields the
maximum-severity result of mapping each error kind through the fixed table,
under the value order NOT_EVALUATED < PASS < PASS_WITH_WARNINGS < FAIL < ERROR,
and the outcome is invariant under permutations of E. -/
theorem c1_evaluate_spec (opid : String) (layer : MapLayer) :
    (error_mapping .MAPCHEF_OUTPUT_MISSING = .FAIL
      ∧ error_mapping .LAYER_DATASOURCE_NONE = .FAIL
      ∧ error_mapping .LAYER_DATASOURCE_MULTIPLE = .PASS_WITH_WARNINGS
      ∧ error_mapping .LAYER_SCHEMA_INVALID = .PASS_WITH_WARNINGS)
    ∧ (EvaluationResult.NOT_EVALUATED.value < EvaluationResult.PASS.value
      ∧ EvaluationResult.PASS.value < EvaluationResult.PASS_WITH_WARNINGS.value
      ∧ EvaluationResult.PASS_WITH_WARNINGS.value < EvaluationResult.FAIL.value
      ∧ EvaluationResult.FAIL.value < EvaluationResult.ERROR.value)
    ∧ ((Evaluation.init opid layer).evaluate.result = .PASS ↔ layer.errors = [])
    ∧ (layer.errors ≠ [] →
        (Evaluation.init opid layer).evaluate.result ∈ layer.errors.map error_mapping
        ∧ ∀ r ∈ layer.errors.map error_mapping,
            r.value ≤ (Evaluation.init opid layer).evaluate.result.value)
    ∧ (∀ errors' : List MapChefError, errors'.Perm layer.errors →
        (Evaluation.init opid ⟨layer.layer_id, errors'⟩).evaluate.result
          = (Evaluation.init opid layer).evaluate.result) := by
  refine ⟨⟨rfl, rfl, rfl, rfl⟩, by decide, ?_, ?_, ?_⟩
  · constructor
    · intro hpass
      by_contra hne
      have hmem := evaluate_nonempty_mem opid layer hne
      rw [hpass] at hmem
      rcases List.mem_map.mp hmem with ⟨err, _, herr⟩
      rcases error_mapping_cases err with hc | hc <;> rw [hc] at herr <;> cases herr
    · intro hempty
      rw [evaluate_result_eq, hempty]
      simp
  · intro hne
    refine ⟨evaluate_nonempty_mem opid layer hne, ?_⟩
    intro r hr
    rw [evaluate_result_eq]
    have hlen : ¬layer.errors.length = 0 := by simpa using hne
    rw [if_neg hlen]
    exact foldl_severityMax_mem_le _ _ r hr
  · intro errors' hperm
    rw [evaluate_result_eq, evaluate_result_eq]
    have hlen := hperm.length_eq
    simp only [hlen]
    have hmap : (errors'.map error_mapping).Perm (layer.errors.map error_mapping) :=
      hperm.map error_mapping
    exact hmap.foldl_eq'
      (fun x _ y _ z => severityMax_right_comm z x y) _

/-- Witness for C1 at a concrete two-error layer. -/
theorem c1_evaluate_spec_witness :
    ([MapChefError.LAYER_SCHEMA_INVALID, .LAYER_DATASOURCE_NONE] ≠
        ([] : List MapChefError))
    ∧ (Evaluation.init "mozambique-cyclone"
          ⟨"tran-rds-ln-s0", [.LAYER_SCHEMA_INVALID, .LAYER_DATASOURCE_NONE]⟩).evaluate.result
        ∈ [MapChefError.LAYER_SCHEMA_INVALID, .LAYER_DATASOURCE_NONE].map error_mapping
    ∧ (Evaluation.init "mozambique-cyclone"
          ⟨"tran-rds-ln-s0", [.LAYER_DATASOURCE_NONE, .LAYER_SCHEMA_INVALID]⟩).evaluate.result
        = (Evaluation.init "mozambique-cyclone"
          ⟨"tran-rds-ln-s0", [.LAYER_SCHEMA_INVALID, .LAYER_DATASOURCE_NONE]⟩).evaluate.result := by
  have h := c1_evaluate_spec "mozambique-cyclone"
    ⟨"tran-rds-ln-s0", [.LAYER_SCHEMA_INVALID, .LAYER_DATASOURCE_NONE]⟩
  exact ⟨by decide, (h.2.2.2.1 (by decide)).1,
    h.2.2.2.2 [.LAYER_DATASOURCE_NONE, .LAYER_SCHEMA_INVALID] (by decide)⟩

/-- One layer entry of a map frame in a MapChef description file. -/
structure FrameLayer where
  name : String
  error_messages : List String
deriving DecidableEq, Repr

/-- One map frame in a MapChef description file. -/
structure MapFrame where
  name : String
  layers : List FrameLayer
deriving DecidableEq, Repr

/-- Parsed content of the latest MapChef description/output JSON file. -/
structure MapChefDescription where
  mapnumber : String
  product : String
  version_num : Int
  principal_map_frame : String
  map_frames : List MapFrame
deriving DecidableEq, Repr

/-- Loop body of `_get_map_chef_primary_layers` building one MapLayer per
frame layer entry; a ValueError from MapLayer construction aborts. -/
def build_frame_layers : List FrameLayer → Except PyError (List MapLayer)
  | [] => .ok []
  | l :: rest =>
    match MapLayer.init l.name l.error_messages with
    | .error e => .error e
    | .ok ml =>
      match build_frame_layers rest with
      | .error e => .error e
      | .ok ms => .ok (ml :: ms)

/-- MapProduct._get_map_chef_primary_layers: Python initialises
`primary_data_frame = {}`, replaces it with the first frame whose name equals
`principal_map_frame`, then reads `primary_data_frame["layers"]`; when no frame
matched, that subscript on the empty dict raises KeyError. -/
def get_map_chef_primary_layers (d : MapChefDescription) :
    Except PyError (List MapLayer) :=
  match d.map_frames.find? (fun f => f.name = d.principal_map_frame) with
  | none => .error .keyError
  | some frame => build_frame_layers frame.layers

/-- Filesystem state of one product directory: `missing` models a base path
that is not a directory or that contains no description JSON file (both raise
MapProductInvalid); `present` carries the latest description file's content. -/
inductive ProductSource
  | missing
  | present (description : MapChefDescription)
deriving DecidableEq, Repr

/-- MapProduct data model. -/
structure MapProduct where
  product_id : String
  product_name : String
  version : Int
  layers : List MapLayer
deriving DecidableEq, Repr

/-- MapProduct.__init__: MapProductInvalid when the directory or description
file is missing, otherwise reads properties and the primary frame's layers
(whose errors propagate unhandled). -/
def MapProduct.init : ProductSource → Except PyError MapProduct
  | .missing => .error .mapProductInvalid
  | .present d =>
    match get_map_chef_primary_layers d with
    | .error e => .error e
    | .ok layers => .ok ⟨d.mapnumber, d.product, d.version_num, layers⟩

/-- Concrete description document whose declared principal frame matches none
of its map frames. -/
def c2_doc : MapChefDescription :=
  ⟨"MA9999", "All layers", 1, "Main map frame", [⟨"Second map frame", []⟩]⟩

/-- Counterexample to claim C2: for this document the declared principal frame
identifier matches no frame name, and product resolution raises KeyError
instead of succeeding with a zero-layer product. -/
theorem c2_counterexample :
    (c2_doc.map_frames.all (fun f => f.name ≠ c2_doc.principal_map_frame)) = true
    ∧ MapProduct.init (.present c2_doc) = .error .keyError := by
  constructor
  · decide
  · rfl

/-- Claim C2 amended: when the declared principal frame identifier matches no
frame name, product resolution fails with a KeyError (subscripting the empty
fallback frame), rather than producing a MapProduct with zero layers. -/
theorem c2_amended (d : MapChefDescription)
    (h : d.map_frames.all (fun f => f.name ≠ d.principal_map_frame)) :
    MapProduct.init (.present d) = .error .keyError := by
  have hfind : d.map_frames.find? (fun f => f.name = d.principal_map_frame) = none := by
    rw [List.find?_eq_none]
    intro f hf
    have := List.all_eq_true.mp h f hf
    simpa using this
  simp [MapProduct.init, get_map_chef_primary_layers, hfind]

/-- Witness for the amended C2 at the concrete document. -/
theorem c2_amended_witness :
    (c2_doc.map_frames.all (fun f => f.name ≠ c2_doc.principal_map_frame)) = true
    ∧ MapProduct.init (.present c2_doc) = .error .keyError :=
  ⟨by decide, c2_amended c2_doc (by decide)⟩

/-- One record of the pycountry country reference table. -/
structure Country where
  alpha_3 : String
  name : String
deriving DecidableEq, Repr

/-- pycountry `countries.get(alpha_3=code)`: the matching record, or None when
the code is unrecognised (no exception is raised). -/
def countries_get (table : List Country) (alpha_3 : String) : Option Country :=
  table.find? (fun c => c.alpha_3 = alpha_3)

/-- Parsed content of `event_description.json`. -/
structure EventDescription where
  cmf_descriptor_path : String
  operation_id : String
  operation_name : String
  affected_country_iso3 : String
deriving DecidableEq, Repr

/-- Parsed content of `cmf_description.json`. -/
structure CmfDescription where
  map_projects : String
  layer_properties : String
deriving DecidableEq, Repr

/-- Operation data model; `affected_country` holds whatever `countries.get`
returned, including None for an unrecognised code. -/
structure Operation where
  operation_id : String
  operation_name : String
  affected_country : Option Country
  map_products_path : String
  layer_properties_path : String
deriving DecidableEq, Repr

/-- Operation.__init__ given the parsed event and CMF description documents:
resolves the paths, raises OperationInvalid exactly when the operation id is
the empty string, then stores the name and the (unchecked) country lookup. -/
def Operation.init (table : List Country) (event : EventDescription)
    (cmf : CmfDescription) : Except PyError Operation :=
  if event.operation_id.length = 0 then .error .operationInvalid
  else
    .ok ⟨event.operation_id, event.operation_name,
      countries_get table event.affected_country_iso3,
      cmf.map_projects, cmf.layer_properties⟩

/-- Filesystem state of one configured operation path: `missing` models a path
whose description files cannot be opened (FileNotFoundError); `present`
carries the two parsed description documents. -/
inductive OperationSource
  | missing
  | present (event : EventDescription) (cmf : CmfDescription)
deriving DecidableEq, Repr

/-- parse_operations: builds an Operation per configured path, logging and
skipping paths that raise FileNotFoundError or OperationInvalid. -/
def parse_operations (table : List Country) (sources : List OperationSource) :
    List Operation :=
  sources.foldl (fun ops s =>
    match s with
    | .missing => ops
    | .present event cmf =>
      match Operation.init table event cmf with
      | .ok op => ops ++ [op]
      | .error _ => ops) []

/-- Reference table and event document for the C4 counterexample: the affected
country code "XXX" is not in the table, yet construction succeeds. -/
def c4_table : List Country := [⟨"MOZ", "Mozambique"⟩]

/-- Event description with a valid id but an unrecognised country code. -/
def c4_event : EventDescription :=
  ⟨"GIS/cmf_description.json", "mozambique-cyclone", "Mozambique Cyclone", "XXX"⟩

/-- CMF description used by the C4 counterexample. -/
def c4_cmf : CmfDescription :=
  ⟨"GIS/3_Mapping/33_MXD_Maps", "GIS/3_Mapping/31_Resources/layerProperties.json"⟩

/-- Counterexample to claim C4: with an unrecognised affected-country code the
constructor does not fail with OperationInvalid; it succeeds and records
`affected_country = none`. -/
theorem c4_counterexample :
    countries_get c4_table c4_event.affected_country_iso3 = none
    ∧ Operation.init c4_table c4_event c4_cmf
        = .ok ⟨"mozambique-cyclone", "Mozambique Cyclone", none,
            "GIS/3_Mapping/33_MXD_Maps",
            "GIS/3_Mapping/31_Resources/layerProperties.json"⟩
    ∧ Operation.init c4_table c4_event c4_cmf ≠ .error .operationInvalid := by
  refine ⟨by decide, rfl, ?_⟩
  intro h
  have h2 : (Except.ok ⟨"mozambique-cyclone", "Mozambique Cyclone", none,
      "GIS/3_Mapping/33_MXD_Maps",
      "GIS/3_Mapping/31_Resources/layerProperties.json"⟩ : Except PyError Operation)
      = .error .operationInvalid := h
  cases h2

/-- Claim C4 amended: operation construction fails with OperationInvalid
exactly when the resolved operation id is the empty string; an unrecognised
country code is not checked (the lookup result, possibly None, is stored), and
parse_operations skips failed operations and keeps the rest, never aborting. -/
theorem c4_amended (table : List Country) (event : EventDescription)
    (cmf : CmfDescription) :
    (Operation.init table event cmf = .error .operationInvalid
      ↔ event.operation_id.length = 0)
    ∧ (0 < event.operation_id.length →
        Operation.init table event cmf
          = .ok ⟨event.operation_id, event.operation_name,
              countries_get table event.affected_country_iso3,
              cmf.map_projects, cmf.layer_properties⟩)
    ∧ (∀ sources : List OperationSource,
        parse_operations table sources
          = sources.filterMap (fun s =>
              match s with
              | .missing => none
              | .present e c => (Operation.init table e c).toOption)) := by
  refine ⟨?_, ?_, ?_⟩
  · unfold Operation.init
    constructor
    · intro h
      by_contra hne
      rw [if_neg hne] at h
      cases h
    · intro h
      rw [if_pos h]
  · intro h
    unfold Operation.init
    rw [if_neg (by omega)]
  · intro sources
    have hgen : ∀ (srcs : List OperationSource) (acc : List Operation),
        srcs.foldl (fun ops s =>
          match s with
          | .missing => ops
          | .present event cmf =>
            match Operation.init table event cmf with
            | .ok op => ops ++ [op]
            | .error _ => ops) acc
          = acc ++ srcs.filterMap (fun s =>
              match s with
              | .missing => none
              | .present e c => (Operation.init table e c).toOption) := by
      intro srcs
      induction srcs with
      | nil => intro acc; simp
      | cons s rest ih =>
        intro acc
        cases s with
        | missing => simpa using ih acc
        | present e c =>
          cases hop : Operation.init table e c with
          | ok op =>
            simp only [List.foldl_cons, List.filterMap_cons, hop]
            rw [ih (acc ++ [op])]
            simp [Except.toOption]
          | error err =>
            simp only [List.foldl_cons, List.filterMap_cons, hop]
            rw [ih acc]
            simp [Except.toOption]
    simpa [parse_operations] using hgen sources []

/-- Witness for the amended C4 at concrete inputs. -/
theorem c4_amended_witness :
    (0 < ("mozambique-cyclone" : String).length)
    ∧ Operation.init c4_table c4_event c4_cmf
        = .ok ⟨"mozambique-cyclone", "Mozambique Cyclone",
            countries_get c4_table "XXX",
            "GIS/3_Mapping/33_MXD_Maps",
            "GIS/3_Mapping/31_Resources/layerProperties.json"⟩ :=
  ⟨by decide, (c4_amended c4_table c4_event c4_cmf).2.1 (by decide)⟩

/-- Python dict membership test `k in d.keys()` for a string-keyed dict
modelled as an insertion-ordered association list. -/
def containsKey {α : Type} (d : List (String × α)) (k : String) : Bool :=
  d.any (fun p => p.1 = k)

/-- Python dict read `d[k]` (None models KeyError). -/
def dictGet? {α : Type} (d : List (String × α)) (k : String) : Option α :=
  (d.find? (fun p => p.1 = k)).map Prod.snd

/-- Python dict read `d[k]` with an explicit fallback for the absent case. -/
def dictGetD {α : Type} (d : List (String × α)) (k : String) (v : α) : α :=
  (dictGet? d k).getD v

/-- Update the value stored at key `k` in place, leaving other keys alone. -/
def mapAt {α : Type} (d : List (String × α)) (k : String) (f : α → α) :
    List (String × α) :=
  d.map (fun p => if p.1 = k then (p.1, f p.2) else p)

/-- Python dict assignment `d[k] = v`: overwrite in place when the key exists,
append when it is new. -/
def dictSet {α : Type} (d : List (String × α)) (k : String) (v : α) :
    List (String × α) :=
  if containsKey d k then mapAt d k (fun _ => v) else d ++ [(k, v)]

theorem containsKey_iff {α : Type} (d : List (String × α)) (k : String) :
    containsKey d k = true ↔ (dictGet? d k).isSome := by
  unfold containsKey dictGet?
  induction d with
  | nil => simp
  | cons p rest ih =>
    by_cases h : p.1 = k
    · simp [List.find?_cons, h]
    · simp [List.any_cons, List.find?_cons, h, ih]

theorem dictGet?_append {α : Type} (d e : List (String × α)) (k : String) :
    dictGet? (d ++ e) k
      = match dictGet? d k with
        | some v => some v
        | none => dictGet? e k := by
  unfold dictGet?
  induction d with
  | nil => simp
  | cons p rest ih =>
    by_cases h : p.1 = k
    · simp [List.find?_cons, h]
    · simpa [List.find?_cons, h] using ih

theorem dictGet?_mapAt {α : Type} (d : List (String × α)) (k k' : String)
    (f : α → α) :
    dictGet? (mapAt d k f) k'
      = if k' = k then (dictGet? d k').map f else dictGet? d k' := by
  induction d with
  | nil =>
    simp only [mapAt, List.map_nil, dictGet?, List.find?_nil, Option.map_none']
    split <;> rfl
  | cons p rest ih =>
    simp only [mapAt, List.map_cons, dictGet?, List.find?_cons] at ih ⊢
    by_cases hpk : p.1 = k
    · by_cases hp : p.1 = k'
      · have hk : k' = k := by rw [← hp, hpk]
        simp [hpk, hp, hk]
      · have hk : ¬k' = k := fun h => hp (by rw [h]; exact hpk)
        have hk2 : ¬k = k' := fun h => hp (by rw [hpk, h])
        simpa [hpk, hp, hk, hk2] using ih
    · by_cases hp : p.1 = k'
      · have hk : ¬k' = k := fun h => hpk (by rw [← h]; exact hp)
        simp [hpk, hp, hk]
      · simpa [hpk, hp] using ih

theorem dictGet?_dictSet {α : Type} (d : List (String × α)) (k k' : String)
    (v : α) :
    dictGet? (dictSet d k v) k'
      = if k' = k then some v else dictGet? d k' := by
  unfold dictSet
  by_cases hc : containsKey d k
  · rw [if_pos hc, dictGet?_mapAt]
    by_cases hk : k' = k
    · rw [if_pos hk, if_pos hk, hk]
      have := (containsKey_iff d k).mp hc
      cases hcase : dictGet? d k with
      | none => rw [hcase] at this; cases this
      | some w => simp
    · rw [if_neg hk, if_neg hk]
  · rw [if_neg hc, dictGet?_append]
    by_cases hk : k' = k
    · subst hk
      have : ¬(dictGet? d k').isSome := fun h => hc ((containsKey_iff d k').mpr h)
      cases hcase : dictGet? d k' with
      | none => simp [dictGet?, List.find?_cons]
      | some w => rw [hcase] at this; simp at this
    · rw [if_neg hk]
      have hk2 : ¬(k = k') := fun h => hk h.symm
      cases hcase : dictGet? d k' with
      | none => simp [hcase, dictGet?, List.find?_cons, hk2]
      | some w => simp [hcase]

/-- Parsed content of the fallback `layerProperties.json` file; each entry of
its `layerProperties` list is represented by the entry's `name` value, the
only key the code reads. -/
structure LayerPropertiesFile where
  layerProperties : List String
deriving DecidableEq, Repr

/-- Loop body of `Operation.get_layer_properties`: one MapLayer per declared
layer, each constructed with the single synthetic message
"MAPCHEF_OUTPUT_MISSING". -/
def build_fallback_layers : List String → Except PyError (List MapLayer)
  | [] => .ok []
  | n :: rest =>
    match MapLayer.init n ["MAPCHEF_OUTPUT_MISSING"] with
    | .error e => .error e
    | .ok l =>
      match build_fallback_layers rest with
      | .error e => .error e
      | .ok ls => .ok (l :: ls)

/-- Operation.get_layer_properties applied to the parsed content of the
operation's `layer_properties_path` file. -/
def Operation.get_layer_properties (doc : LayerPropertiesFile) :
    Except PyError (List MapLayer) :=
  build_fallback_layers doc.layerProperties

theorem build_fallback_layers_eq (names : List String) :
    build_fallback_layers names
      = .ok (names.map (fun n => MapLayer.mk n [.MAPCHEF_OUTPUT_MISSING])) := by
  induction names with
  | nil => rfl
  | cons n rest ih =>
    simp only [build_fallback_layers, ih]
    rfl

/-- Per-operation inputs of `parse_operation_layers`: the operation itself,
the filesystem state of its 'all layers' product directory, and the parsed
content of its fallback layer-definitions file. -/
structure OperationContext where
  operation : Operation
  all_layers_product : ProductSource
  layer_properties_file : LayerPropertiesFile
deriving DecidableEq, Repr

/-- Loop body of `parse_operation_layers`: try the 'all layers' product;
on MapProductInvalid fall back to the layer definitions; any other error
(KeyError, ValueError) propagates. -/
def resolve_operation_layers (ctx : OperationContext) :
    Except PyError (List MapLayer) :=
  match MapProduct.init ctx.all_layers_product with
  | .ok product => .ok product.layers
  | .error .mapProductInvalid =>
    Operation.get_layer_properties ctx.layer_properties_file
  | .error e => .error e

/-- Dict update performed by one iteration of the `parse_operation_layers`
loop: store the resolved layers under the operation's id. -/
def parse_layers_step (layers : List (String × List MapLayer))
    (ctx : OperationContext) : Except PyError (List (String × List MapLayer)) :=
  match resolve_operation_layers ctx with
  | .ok ls => .ok (dictSet layers ctx.operation.operation_id ls)
  | .error e => .error e

/-- parse_operation_layers: resolve each operation's layers into a dict keyed
by operation id. -/
def parse_operation_layers (ctxs : List OperationContext) :
    Except PyError (List (String × List MapLayer)) :=
  ctxs.foldlM parse_layers_step []

/-- filter_valid_operations: keep the operations whose id is a key of the
layers dict. -/
def filter_valid_operations (operations : List Operation)
    (operation_layers : List (String × List MapLayer)) : List Operation :=
  operations.filter (fun op => containsKey operation_layers op.operation_id)

/-- generate_evaluations: one not-yet-evaluated Evaluation per
(operation id, layer) pair, in dict insertion order. -/
def generate_evaluations (operation_layers : List (String × List MapLayer)) :
    List Evaluation :=
  operation_layers.foldl
    (fun evs p => evs ++ p.2.map (fun l => Evaluation.init p.1 l)) []

/-- process_evaluations: run every evaluation's evaluate step. -/
def process_evaluations (evaluations : List Evaluation) : List Evaluation :=
  evaluations.map Evaluation.evaluate

theorem except_bind_ok {ε α β : Type} (a : α) (g : α → Except ε β) :
    (Except.ok a >>= g) = g a := rfl

theorem except_bind_error {ε α β : Type} (e : ε) (g : α → Except ε β) :
    ((Except.error e : Except ε α) >>= g) = .error e := rfl

theorem parse_foldlM_preserve (ctxs : List OperationContext) :
    ∀ (acc layers : List (String × List MapLayer)) (k : String) (v : List MapLayer),
      ctxs.foldlM parse_layers_step acc = .ok layers →
      dictGet? acc k = some v →
      (∀ c ∈ ctxs, c.operation.operation_id = k →
        resolve_operation_layers c = .ok v) →
      dictGet? layers k = some v := by
  induction ctxs with
  | nil =>
    intro acc layers k v hfold hacc _
    simp only [List.foldlM_nil] at hfold
    cases hfold
    exact hacc
  | cons c rest ih =>
    intro acc layers k v hfold hacc hsame
    simp only [List.foldlM_cons] at hfold
    cases hres : parse_layers_step acc c with
    | error e => rw [hres, except_bind_error] at hfold; cases hfold
    | ok acc' =>
      rw [hres, except_bind_ok] at hfold
      unfold parse_layers_step at hres
      cases hr : resolve_operation_layers c with
      | error e => rw [hr] at hres; cases hres
      | ok ls =>
        rw [hr] at hres
        cases hres
        by_cases hid : c.operation.operation_id = k
        · have hv : ls = v := by
            have := hsame c (List.mem_cons_self c rest) hid
            rw [hr] at this
            cases this
            rfl
          refine ih _ layers k v hfold ?_
            (fun c' hc' h => hsame c' (List.mem_cons_of_mem c hc') h)
          rw [dictGet?_dictSet, hid, if_pos rfl, hv]
        · refine ih _ layers k v hfold ?_
            (fun c' hc' h => hsame c' (List.mem_cons_of_mem c hc') h)
          rw [dictGet?_dictSet, if_neg (fun h => hid h.symm)]
          exact hacc

theorem parse_foldlM_keeps_key (ctxs : List OperationContext) :
    ∀ (acc layers : List (String × List MapLayer)) (k : String),
      ctxs.foldlM parse_layers_step acc = .ok layers →
      (dictGet? acc k).isSome →
      (dictGet? layers k).isSome := by
  induction ctxs with
  | nil =>
    intro acc layers k hfold hacc
    simp only [List.foldlM_nil] at hfold
    cases hfold
    exact hacc
  | cons c rest ih =>
    intro acc layers k hfold hacc
    simp only [List.foldlM_cons] at hfold
    cases hres : parse_layers_step acc c with
    | error e => rw [hres, except_bind_error] at hfold; cases hfold
    | ok acc' =>
      rw [hres, except_bind_ok] at hfold
      unfold parse_layers_step at hres
      cases hr : resolve_operation_layers c with
      | error e => rw [hr] at hres; cases hres
      | ok ls =>
        rw [hr] at hres
        cases hres
        refine ih _ layers k hfold ?_
        rw [dictGet?_dictSet]
        by_cases hid : k = c.operation.operation_id
        · rw [if_pos hid]; rfl
        · rw [if_neg hid]; exact hacc

theorem parse_foldlM_sets (ctxs : List OperationContext) :
    ∀ (acc layers : List (String × List MapLayer)) (ctx : OperationContext),
      ctxs.foldlM parse_layers_step acc = .ok layers →
      ctx ∈ ctxs →
      (∀ c ∈ ctxs, c.operation.operation_id = ctx.operation.operation_id →
        resolve_operation_layers c = resolve_operation_layers ctx) →
      ∃ ls, resolve_operation_layers ctx = .ok ls
        ∧ dictGet? layers ctx.operation.operation_id = some ls := by
  induction ctxs with
  | nil => intro _ _ _ _ hmem; cases hmem
  | cons c rest ih =>
    intro acc layers ctx hfold hmem hsame
    simp only [List.foldlM_cons] at hfold
    cases hres : parse_layers_step acc c with
    | error e => rw [hres, except_bind_error] at hfold; cases hfold
    | ok acc' =>
      rw [hres, except_bind_ok] at hfold
      unfold parse_layers_step at hres
      cases hr : resolve_operation_layers c with
      | error e => rw [hr] at hres; cases hres
      | ok ls =>
        rw [hr] at hres
        cases hres
        rcases List.mem_cons.mp hmem with hctx | hctx
        · subst hctx
          refine ⟨ls, hr, ?_⟩
          refine parse_foldlM_preserve rest _ layers _ ls hfold ?_ ?_
          · rw [dictGet?_dictSet, if_pos rfl]
          · intro c' hc' hid
            rw [hsame c' (List.mem_cons_of_mem ctx hc') hid, hr]
        · exact ih _ layers ctx hfold hctx
            (fun c' hc' h => hsame c' (List.mem_cons_of_mem c hc') h)

theorem mapAt_keys {α : Type} (d : List (String × α)) (k : String) (f : α → α) :
    (mapAt d k f).map Prod.fst = d.map Prod.fst := by
  unfold mapAt
  induction d with
  | nil => rfl
  | cons p rest ih =>
    simp only [List.map_cons, ih]
    by_cases hp : p.1 = k
    · rw [if_pos hp]
    · rw [if_neg hp]

theorem containsKey_false_not_mem {α : Type} (d : List (String × α)) (k : String)
    (h : ¬containsKey d k = true) : k ∉ d.map Prod.fst := by
  intro hmem
  apply h
  unfold containsKey
  rw [List.any_eq_true]
  rcases List.mem_map.mp hmem with ⟨p, hp, hfst⟩
  exact ⟨p, hp, by rw [hfst]; simp⟩

theorem dictSet_nodup_keys {α : Type} (d : List (String × α)) (k : String) (v : α)
    (h : (d.map Prod.fst).Nodup) : ((dictSet d k v).map Prod.fst).Nodup := by
  unfold dictSet
  by_cases hc : containsKey d k
  · rw [if_pos hc, mapAt_keys]; exact h
  · rw [if_neg hc]
    rw [List.map_append]
    simp only [List.map_cons, List.map_nil]
    rw [List.nodup_append]
    refine ⟨h, List.nodup_singleton k, ?_⟩
    intro a ha hk
    have hak : a = k := by simpa using hk
    exact containsKey_false_not_mem d k hc (hak ▸ ha)

theorem parse_foldlM_nodup_keys (ctxs : List OperationContext) :
    ∀ (acc layers : List (String × List MapLayer)),
      ctxs.foldlM parse_layers_step acc = .ok layers →
      (acc.map Prod.fst).Nodup → (layers.map Prod.fst).Nodup := by
  induction ctxs with
  | nil =>
    intro acc layers hfold hacc
    simp only [List.foldlM_nil] at hfold
    cases hfold
    exact hacc
  | cons c rest ih =>
    intro acc layers hfold hacc
    simp only [List.foldlM_cons] at hfold
    cases hres : parse_layers_step acc c with
    | error e => rw [hres, except_bind_error] at hfold; cases hfold
    | ok acc' =>
      rw [hres, except_bind_ok] at hfold
      unfold parse_layers_step at hres
      cases hr : resolve_operation_layers c with
      | error e => rw [hr] at hres; cases hres
      | ok ls =>
        rw [hr] at hres
        cases hres
        exact ih _ layers hfold (dictSet_nodup_keys acc _ ls hacc)

theorem assoc_get_of_mem {α : Type} (d : List (String × α))
    (h : (d.map Prod.fst).Nodup) (p : String × α) (hp : p ∈ d) :
    dictGet? d p.1 = some p.2 := by
  induction d with
  | nil => cases hp
  | cons q rest ih =>
    rcases List.mem_cons.mp hp with hq | hq
    · subst hq
      unfold dictGet?
      rw [List.find?_cons]
      simp
    · have hqn : ¬q.1 = p.1 := by
        intro heq
        have h1 : q.1 ∉ rest.map Prod.fst := by
          simp only [List.map_cons, List.nodup_cons] at h
          exact h.1
        exact h1 (heq ▸ List.mem_map.mpr ⟨p, hq, rfl⟩)
      unfold dictGet?
      rw [List.find?_cons]
      simp only [hqn, decide_False]
      have h2 : (rest.map Prod.fst).Nodup := by
        simp only [List.map_cons, List.nodup_cons] at h
        exact h.2
      exact ih h2 hq

theorem generate_evaluations_eq (d : List (String × List MapLayer)) :
    generate_evaluations d
      = d.flatMap (fun p => p.2.map (fun l => Evaluation.init p.1 l)) := by
  have hgen : ∀ (l : List (String × List MapLayer)) (acc : List Evaluation),
      l.foldl (fun evs p => evs ++ p.2.map (fun l => Evaluation.init p.1 l)) acc
        = acc ++ l.flatMap (fun p => p.2.map (fun l => Evaluation.init p.1 l)) := by
    intro l
    induction l with
    | nil => intro acc; simp
    | cons p rest ih =>
      intro acc
      simp only [List.foldl_cons, List.flatMap_cons, ih]
      simp
  simpa [generate_evaluations] using hgen d []

theorem mem_generate_evaluations (d : List (String × List MapLayer))
    (ev : Evaluation) :
    ev ∈ generate_evaluations d
      ↔ ∃ p ∈ d, ∃ l ∈ p.2, ev = Evaluation.init p.1 l := by
  rw [generate_evaluations_eq, List.mem_flatMap]
  constructor
  · rintro ⟨p, hp, hl⟩
    rcases List.mem_map.mp hl with ⟨l, hlmem, hinit⟩
    exact ⟨p, hp, l, hlmem, hinit.symm⟩
  · rintro ⟨p, hp, l, hlmem, hinit⟩
    exact ⟨p, hp, List.mem_map.mpr ⟨l, hlmem, hinit.symm⟩⟩

theorem evaluate_single_missing (opid n : String) :
    (Evaluation.init opid ⟨n, [.MAPCHEF_OUTPUT_MISSING]⟩).evaluate.result
      = .FAIL := rfl

theorem evaluate_operation_id (e : Evaluation) :
    e.evaluate.operation_id = e.operation_id := rfl

theorem parse_foldlM_key_present (ctxs : List OperationContext) :
    ∀ (acc layers : List (String × List MapLayer)) (ctx : OperationContext),
      ctxs.foldlM parse_layers_step acc = .ok layers →
      ctx ∈ ctxs →
      (dictGet? layers ctx.operation.operation_id).isSome := by
  induction ctxs with
  | nil => intro _ _ _ _ hmem; cases hmem
  | cons c rest ih =>
    intro acc layers ctx hfold hmem
    simp only [List.foldlM_cons] at hfold
    cases hres : parse_layers_step acc c with
    | error e => rw [hres, except_bind_error] at hfold; cases hfold
    | ok acc' =>
      rw [hres, except_bind_ok] at hfold
      unfold parse_layers_step at hres
      cases hr : resolve_operation_layers c with
      | error e => rw [hr] at hres; cases hres
      | ok ls =>
        rw [hr] at hres
        cases hres
        rcases List.mem_cons.mp hmem with hctx | hctx
        · subst hctx
          refine parse_foldlM_keeps_key rest _ layers _ hfold ?_
          rw [dictGet?_dictSet, if_pos rfl]
          rfl
        · exact ih _ layers ctx hfold hctx

/-- Claim C3: a valid operation whose 'all layers' product resolution fails
with MapProductInvalid still appears in the final (filtered) operation list,
its layers entry is exactly the layers declared in its fallback
layer-definitions file, each such layer carries the single synthetic
MAPCHEF_OUTPUT_MISSING error, and after evaluation every one of its
evaluations has result FAIL. -/
theorem c3_fallback_operation (ctxs : List OperationContext)
    (layers : List (String × List MapLayer)) (ctx : OperationContext)
    (hnodup : (ctxs.map (fun c => c.operation.operation_id)).Nodup)
    (hok : parse_operation_layers ctxs = .ok layers)
    (hmem : ctx ∈ ctxs)
    (hmissing : ctx.all_layers_product = .missing) :
    ctx.operation ∈ filter_valid_operations (ctxs.map (fun c => c.operation)) layers
    ∧ dictGet? layers ctx.operation.operation_id
        = some (ctx.layer_properties_file.layerProperties.map
            (fun n => MapLayer.mk n [.MAPCHEF_OUTPUT_MISSING]))
    ∧ (∀ l ∈ ctx.layer_properties_file.layerProperties.map
          (fun n => MapLayer.mk n [.MAPCHEF_OUTPUT_MISSING]),
        l.errors = [.MAPCHEF_OUTPUT_MISSING])
    ∧ (∀ ev ∈ process_evaluations (generate_evaluations layers),
        ev.operation_id = ctx.operation.operation_id → ev.result = .FAIL) := by
  have hres : resolve_operation_layers ctx
      = .ok (ctx.layer_properties_file.layerProperties.map
          (fun n => MapLayer.mk n [.MAPCHEF_OUTPUT_MISSING])) := by
    unfold resolve_operation_layers
    rw [hmissing]
    show Operation.get_layer_properties ctx.layer_properties_file = _
    unfold Operation.get_layer_properties
    exact build_fallback_layers_eq _
  have hsame : ∀ c ∈ ctxs,
      c.operation.operation_id = ctx.operation.operation_id →
      resolve_operation_layers c = resolve_operation_layers ctx := by
    intro c hc hid
    have : c = ctx := List.inj_on_of_nodup_map hnodup hc hmem hid
    rw [this]
  obtain ⟨ls, hres', hget⟩ :=
    parse_foldlM_sets ctxs [] layers ctx hok hmem hsame
  rw [hres] at hres'
  have hls : ls = ctx.layer_properties_file.layerProperties.map
      (fun n => MapLayer.mk n [.MAPCHEF_OUTPUT_MISSING]) := by
    cases hres'; rfl
  subst hls
  have hkeys : (layers.map Prod.fst).Nodup :=
    parse_foldlM_nodup_keys ctxs [] layers hok (by simp)
  refine ⟨?_, hget, ?_, ?_⟩
  · apply List.mem_filter.mpr
    refine ⟨List.mem_map.mpr ⟨ctx, hmem, rfl⟩, ?_⟩
    rw [containsKey_iff, hget]
    rfl
  · intro l hl
    rcases List.mem_map.mp hl with ⟨n, _, hn⟩
    rw [← hn]
  · intro ev hev hid
    rcases List.mem_map.mp hev with ⟨ev₀, hev₀, heval⟩
    rcases (mem_generate_evaluations layers ev₀).mp hev₀ with ⟨p, hp, l, hlmem, hinit⟩
    have hpid : p.1 = ctx.operation.operation_id := by
      rw [← hid, ← heval, evaluate_operation_id, hinit]
      rfl
    have hpget := assoc_get_of_mem layers hkeys p hp
    rw [hpid, hget] at hpget
    have hp2 : p.2 = ctx.layer_properties_file.layerProperties.map
        (fun n => MapLayer.mk n [.MAPCHEF_OUTPUT_MISSING]) :=
      (Option.some.inj hpget).symm
    rw [hp2] at hlmem
    rcases List.mem_map.mp hlmem with ⟨n, _, hn⟩
    rw [← heval, hinit, ← hn]
    exact evaluate_single_missing p.1 n

/-- Concrete operation used by the C3 witness. -/
def c3_op : Operation :=
  ⟨"op-one", "Operation One", some ⟨"MOZ", "Mozambique"⟩,
    "GIS/3_Mapping/33_MXD_Maps", "GIS/3_Mapping/31_Resources/layerProperties.json"⟩

/-- Concrete per-operation context with a missing 'all layers' product. -/
def c3_ctx : OperationContext :=
  ⟨c3_op, .missing, ⟨["ma-admn-ad1-py-s0", "ma-tran-rds-ln-s0"]⟩⟩

/-- Layers dict obtained for the C3 witness. -/
def c3_layers : List (String × List MapLayer) :=
  [("op-one", [⟨"ma-admn-ad1-py-s0", [.MAPCHEF_OUTPUT_MISSING]⟩,
               ⟨"ma-tran-rds-ln-s0", [.MAPCHEF_OUTPUT_MISSING]⟩])]

/-- Witness for C3 at the concrete fallback operation. -/
theorem c3_fallback_operation_witness :
    parse_operation_layers [c3_ctx] = .ok c3_layers
    ∧ c3_op ∈ filter_valid_operations ([c3_ctx].map (fun c => c.operation)) c3_layers
    ∧ dictGet? c3_layers "op-one"
        = some [⟨"ma-admn-ad1-py-s0", [.MAPCHEF_OUTPUT_MISSING]⟩,
                ⟨"ma-tran-rds-ln-s0", [.MAPCHEF_OUTPUT_MISSING]⟩] := by
  have h := c3_fallback_operation [c3_ctx] c3_layers c3_ctx
    (by decide) rfl (by decide) rfl
  exact ⟨rfl, h.1, h.2.1⟩

/-- Concrete operation whose layers entry is present but empty. -/
def c5_op : Operation := ⟨"x-op", "X Operation", none, "maps", "layerProperties.json"⟩

/-- Counterexample to claim C5: an operation whose entry in the layers dict is
present but empty is kept by filter_valid_operations, although the claim says
an operation with an empty entry is excluded. -/
theorem c5_counterexample :
    dictGet? [("x-op", ([] : List MapLayer))] "x-op" = some []
    ∧ filter_valid_operations [c5_op] [("x-op", [])] = [c5_op] :=
  ⟨rfl, rfl⟩

/-- Concrete context used by the C5 witness. -/
def c5_ctx : OperationContext :=
  ⟨⟨"y-op", "Y Operation", none, "maps", "layerProperties.json"⟩, .missing,
    ⟨["ma-stle-stl-pt-s0"]⟩⟩

/-- Claim C5 amended: filter_valid_operations keeps exactly the operations
whose id occurs among the keys of the layers dict; key presence (not entry
non-emptiness) is the only operation-level filter, a present-but-empty entry
does not exclude an operation, and whenever parse_operation_layers succeeds
every parsed operation's id is a key, so a failed product resolution never
excludes an operation. -/
theorem c5_amended (operations : List Operation)
    (layers : List (String × List MapLayer)) (op : Operation) :
    (op ∈ filter_valid_operations operations layers
      ↔ op ∈ operations ∧ containsKey layers op.operation_id = true)
    ∧ (op ∈ operations → dictGet? layers op.operation_id = some [] →
        op ∈ filter_valid_operations operations layers)
    ∧ (∀ (ctxs : List OperationContext) (ctx : OperationContext),
        parse_operation_layers ctxs = .ok layers → ctx ∈ ctxs →
        ctx.operation ∈
          filter_valid_operations (ctxs.map (fun c => c.operation)) layers) := by
  refine ⟨List.mem_filter, ?_, ?_⟩
  · intro hmem hget
    apply List.mem_filter.mpr
    refine ⟨hmem, ?_⟩
    rw [containsKey_iff, hget]
    rfl
  · intro ctxs ctx hok hmem
    apply List.mem_filter.mpr
    refine ⟨List.mem_map.mpr ⟨ctx, hmem, rfl⟩, ?_⟩
    rw [containsKey_iff]
    exact parse_foldlM_key_present ctxs [] layers ctx hok hmem

/-- Witness for the amended C5 at concrete inputs. -/
theorem c5_amended_witness :
    c5_op ∈ filter_valid_operations [c5_op] [("x-op", [])]
    ∧ c5_ctx.operation ∈ filter_valid_operations
        ([c5_ctx].map (fun c => c.operation))
        [("y-op", [⟨"ma-stle-stl-pt-s0", [.MAPCHEF_OUTPUT_MISSING]⟩])] := by
  refine ⟨(c5_amended [c5_op] [("x-op", [])] c5_op).2.1 (by decide) rfl, ?_⟩
  exact (c5_amended ([c5_ctx].map (fun c => c.operation))
    [("y-op", [⟨"ma-stle-stl-pt-s0", [.MAPCHEF_OUTPUT_MISSING]⟩])]
    c5_ctx.operation).2.2 [c5_ctx] c5_ctx rfl (by decide)

theorem mapChefError_complete : ∀ e : MapChefError, e ∈ MapChefError.all := by
  decide

theorem classify_unknown (m : String)
    (h : ∀ e : MapChefError, e.value ≠ m) :
    mapChefErrorOfValue m = .error .valueError := by
  unfold mapChefErrorOfValue
  have hfind : MapChefError.all.find? (fun e => e.value = m) = none := by
    rw [List.find?_eq_none]
    intro e _
    simpa using h e
  rw [hfind]

theorem classify_known_value (m : String) (e : MapChefError)
    (h : mapChefErrorOfValue m = .ok e) : e.value = m := by
  unfold mapChefErrorOfValue at h
  cases hfind : MapChefError.all.find? (fun e => e.value = m) with
  | none => rw [hfind] at h; cases h
  | some e' =>
    rw [hfind] at h
    cases h
    simpa using List.find?_some hfind

theorem classify_exists (m : String) (h : ∃ e : MapChefError, e.value = m) :
    ∃ e, mapChefErrorOfValue m = .ok e := by
  rcases h with ⟨e, he⟩
  have hsome : (MapChefError.all.find? (fun e => e.value = m)).isSome := by
    rw [List.find?_isSome]
    exact ⟨e, mapChefError_complete e, by simpa using he⟩
  unfold mapChefErrorOfValue
  cases hfind : MapChefError.all.find? (fun e => e.value = m) with
  | none => rw [hfind] at hsome; cases hsome
  | some e' => exact ⟨e', rfl⟩

theorem parse_unknown (msgs : List String)
    (h : ∃ m ∈ msgs, ∀ e : MapChefError, e.value ≠ m) :
    parse_error_messages msgs = .error .valueError := by
  induction msgs with
  | nil => rcases h with ⟨m, hm, _⟩; cases hm
  | cons m rest ih =>
    rcases h with ⟨w, hw, hwu⟩
    unfold parse_error_messages
    cases hc : mapChefErrorOfValue m with
    | error e =>
      unfold mapChefErrorOfValue at hc
      cases hfind : MapChefError.all.find? (fun e => e.value = m) with
      | none => rw [hfind] at hc; cases hc; rfl
      | some e' => rw [hfind] at hc; cases hc
    | ok e =>
      have hwrest : w ∈ rest := by
        rcases List.mem_cons.mp hw with hwm | hwr
        · exfalso
          exact hwu e (by rw [classify_known_value m e hc, hwm])
        · exact hwr
      rw [ih ⟨w, hwrest, hwu⟩]

theorem parse_known (msgs : List String)
    (h : ∀ m ∈ msgs, ∃ e : MapChefError, e.value = m) :
    ∃ errs, parse_error_messages msgs = .ok errs
      ∧ errs.map MapChefError.value = msgs := by
  induction msgs with
  | nil => exact ⟨[], rfl, rfl⟩
  | cons m rest ih =>
    rcases classify_exists m (h m (List.mem_cons_self m rest)) with ⟨e, he⟩
    rcases ih (fun m' hm' => h m' (List.mem_cons_of_mem m hm')) with
      ⟨errs, herrs, hmap⟩
    refine ⟨e :: errs, ?_, ?_⟩
    · unfold parse_error_messages
      rw [he, herrs]
    · simp only [List.map_cons, hmap, classify_known_value m e he]

/-- Claim C6: the classifier fails with ValueError (the spec's UnknownErrorKind)
on any message that is not exactly one of the known classification strings,
MapLayer construction fails eagerly when any message is unknown, and when all
messages are known construction succeeds and records the corresponding error
kinds in encounter order. -/
theorem c6_classifier_strictness (layer_id : String) (msgs : List String) :
    (∀ m : String, (∀ e : MapChefError, e.value ≠ m) →
        mapChefErrorOfValue m = .error .valueError)
    ∧ ((∃ m ∈ msgs, ∀ e : MapChefError, e.value ≠ m) →
        MapLayer.init layer_id msgs = .error .valueError)
    ∧ ((∀ m ∈ msgs, ∃ e : MapChefError, e.value = m) →
        ∃ layer, MapLayer.init layer_id msgs = .ok layer
          ∧ layer.layer_id = layer_id
          ∧ layer.errors.map MapChefError.value = msgs) := by
  refine ⟨classify_unknown, ?_, ?_⟩
  · intro h
    unfold MapLayer.init
    rw [parse_unknown msgs h]
  · intro h
    rcases parse_known msgs h with ⟨errs, herrs, hmap⟩
    refine ⟨⟨layer_id, errs⟩, ?_, rfl, hmap⟩
    unfold MapLayer.init
    rw [herrs]

/-- Witness for C6: an unrecognised message fails construction; a list of
known messages constructs successfully. -/
theorem c6_classifier_strictness_witness :
    MapLayer.init "stle-stl-pt-s0" ["Data schema check failed", "Some new error"]
      = .error .valueError
    ∧ (MapLayer.init "tran-rds-ln-s0"
        ["Unable to find dataset for this layer", "Data schema check failed"]).isOk
      = true := by
  constructor
  · exact (c6_classifier_strictness "stle-stl-pt-s0"
      ["Data schema check failed", "Some new error"]).2.1
      ⟨"Some new error", by decide, by decide⟩
  · rcases (c6_classifier_strictness "tran-rds-ln-s0"
      ["Unable to find dataset for this layer", "Data schema check failed"]).2.2
      (by decide) with ⟨layer, hl, _, _⟩
    rw [hl]
    rfl

/-- Fresh totals dict with the five fixed result-name keys, all zero. -/
def fiveZeroTotals : List (String × Nat) :=
  [(EvaluationResult.NOT_EVALUATED.name, 0),
   (EvaluationResult.PASS.name, 0),
   (EvaluationResult.PASS_WITH_WARNINGS.name, 0),
   (EvaluationResult.FAIL.name, 0),
   (EvaluationResult.ERROR.name, 0)]

/-- Python `d[k] += 1` for a counts dict whose key is known to be present. -/
def dictIncr (d : List (String × Nat)) (k : String) : List (String × Nat) :=
  mapAt d k (fun n => n + 1)

/-- Summary returned by summarise_evaluations. -/
structure Summary where
  totals_by_result : List (String × Nat)
  totals_by_result_by_operation : List (String × List (String × Nat))
  aggregated_layer_results_by_operation : List (String × List (String × String))
deriving DecidableEq, Repr

/-- Per-evaluation update of `_totals_by_result`. -/
def stepTotals (t : List (String × Nat)) (e : Evaluation) : List (String × Nat) :=
  dictIncr t e.result.name

/-- Per-evaluation update of `_totals_by_result_by_operation`: initialise the
operation's counts on first sight, then increment the result's count. -/
def stepByOp (d : List (String × List (String × Nat))) (e : Evaluation) :
    List (String × List (String × Nat)) :=
  let d := if containsKey d e.operation_id then d
    else d ++ [(e.operation_id, fiveZeroTotals)]
  mapAt d e.operation_id (fun t => dictIncr t e.result.name)

/-- Python `str.split(sep)` for a one-character separator, over the string's
character list: split at every occurrence, keeping empty groups. -/
def pySplitChars (sep : Char) : List Char → List (List Char)
  | [] => [[]]
  | c :: rest =>
    let r := pySplitChars sep rest
    if c = sep then [] :: r
    else
      match r with
      | [] => [[c]]
      | g :: gs => (c :: g) :: gs

/-- Python `s.split(sep="-")` and friends: list of separated substrings. -/
def pySplit (s : String) (sep : Char) : List String :=
  (pySplitChars sep s.data).map (fun cs => ⟨cs⟩)

/-- Python `evaluation.layer.layer_id.split(sep="-")[1]` (`none` models the
IndexError raised when the id has fewer than two tokens). -/
def layerCategory (e : Evaluation) : Option String :=
  (pySplit e.layer.layer_id '-')[1]?

/-- Python `if k not in d.keys(): d[k] = v0`: initialise a key on first sight. -/
def ensureKey {α : Type} (d : List (String × α)) (k : String) (v₀ : α) :
    List (String × α) :=
  if containsKey d k then d else d ++ [(k, v₀)]

/-- Per-evaluation update of `_aggregated_layer_results_by_operation`:
derive the category from the layer id, initialise the operation and category
entries on first sight (category default NOT_EVALUATED), then overwrite the
stored result name when the evaluation's result is strictly more severe than
the stored one (looked up by `EvaluationResult[name]`). -/
def stepAgg (d : List (String × List (String × String))) (e : Evaluation) :
    Except PyError (List (String × List (String × String))) :=
  match layerCategory e with
  | none => .error .indexError
  | some layer_category =>
    let d := ensureKey d e.operation_id []
    let d := mapAt d e.operation_id (fun inner =>
      ensureKey inner layer_category EvaluationResult.NOT_EVALUATED.name)
    match EvaluationResult.ofName
        (dictGetD (dictGetD d e.operation_id []) layer_category "") with
    | none => .error .keyError
    | some current =>
      if e.result.value > current.value then
        .ok (mapAt d e.operation_id
          (fun inner => dictSet inner layer_category e.result.name))
      else .ok d

/-- One iteration of the summarise_evaluations loop. The Python loop mutates
the three local dicts in sequence; an IndexError or KeyError discards them
all, so composing the three per-dict updates and propagating the error is
observationally identical. -/
def summarise_step (s : Summary) (e : Evaluation) : Except PyError Summary :=
  match stepAgg s.aggregated_layer_results_by_operation e with
  | .error err => .error err
  | .ok agg =>
    .ok ⟨stepTotals s.totals_by_result e,
      stepByOp s.totals_by_result_by_operation e, agg⟩

/-- summarise_evaluations: aggregate the evaluations into the three
summary dicts. -/
def summarise_evaluations (evaluations : List Evaluation) :
    Except PyError Summary :=
  evaluations.foldlM summarise_step ⟨fiveZeroTotals, [], []⟩

theorem ofName_name : ∀ r : EvaluationResult,
    EvaluationResult.ofName r.name = some r := by decide

theorem ofName_eq (s : String) (r : EvaluationResult)
    (h : EvaluationResult.ofName s = some r) : s = r.name := by
  unfold EvaluationResult.ofName at h
  have := List.find?_some h
  simp only [decide_eq_true_eq] at this
  exact this.symm

theorem dictGet?_mem {α : Type} (d : List (String × α)) (k : String) (v : α)
    (h : dictGet? d k = some v) : ∃ p ∈ d, p.1 = k ∧ p.2 = v := by
  unfold dictGet? at h
  cases hf : d.find? (fun p => p.1 = k) with
  | none => rw [hf] at h; cases h
  | some p =>
    rw [hf] at h
    refine ⟨p, List.mem_of_find?_eq_some hf, ?_, by
      simpa using h⟩
    have := List.find?_some hf
    simpa using this

/-- Two-level dict read: the stored result name for an operation and
category, when both keys are present. -/
def dictGet2? (d : List (String × List (String × String))) (op cat : String) :
    Option String :=
  match dictGet? d op with
  | none => none
  | some inner => dictGet? inner cat

/-- Decoded two-level read of the aggregation dict. -/
def aggLookup (d : List (String × List (String × String))) (op cat : String) :
    Option EvaluationResult :=
  match dictGet2? d op cat with
  | none => none
  | some nm => EvaluationResult.ofName nm

/-- Every result name stored in the aggregation dict is a valid
EvaluationResult member name. -/
def validAgg (d : List (String × List (String × String))) : Prop :=
  ∀ op cat nm, dictGet2? d op cat = some nm →
    (EvaluationResult.ofName nm).isSome

theorem ensureKey_get {α : Type} (d : List (String × α)) (k : String) (v₀ : α) :
    dictGet? (ensureKey d k v₀) k = some ((dictGet? d k).getD v₀) := by
  unfold ensureKey
  by_cases hc : containsKey d k
  · rw [if_pos hc]
    have := (containsKey_iff d k).mp hc
    cases hg : dictGet? d k with
    | none => rw [hg] at this; cases this
    | some v => simp [hg]
  · rw [if_neg hc, dictGet?_append]
    have hnone : ¬(dictGet? d k).isSome := fun h => hc ((containsKey_iff d k).mpr h)
    cases hg : dictGet? d k with
    | none => simp [dictGet?, List.find?_cons]
    | some v => rw [hg] at hnone; simp at hnone

theorem ensureKey_get_other {α : Type} (d : List (String × α)) (k k' : String)
    (v₀ : α) (h : ¬k' = k) :
    dictGet? (ensureKey d k v₀) k' = dictGet? d k' := by
  unfold ensureKey
  by_cases hc : containsKey d k
  · rw [if_pos hc]
  · rw [if_neg hc, dictGet?_append]
    cases hg : dictGet? d k' with
    | none =>
      have hkk : ¬k = k' := fun he => h he.symm
      simp [dictGet?, List.find?_cons, hkk]
    | some v => simp

theorem dictGet2?_eq (d : List (String × List (String × String)))
    (op cat : String) :
    dictGet2? d op cat = dictGet? ((dictGet? d op).getD []) cat := by
  unfold dictGet2?
  cases dictGet? d op with
  | none => simp [dictGet?]
  | some i => simp

theorem aggLookup_eq (d : List (String × List (String × String)))
    (op cat : String) :
    aggLookup d op cat
      = match dictGet2? d op cat with
        | none => none
        | some nm => EvaluationResult.ofName nm := rfl

theorem stepAgg_spec (d : List (String × List (String × String)))
    (e : Evaluation) (cat_e : String) (hcat : layerCategory e = some cat_e)
    (hvalid : validAgg d) :
    ∃ d', stepAgg d e = .ok d'
      ∧ validAgg d'
      ∧ ∀ op cat, aggLookup d' op cat
          = if op = e.operation_id ∧ cat = cat_e
            then some (severityMax
                ((aggLookup d e.operation_id cat_e).getD .NOT_EVALUATED) e.result)
            else aggLookup d op cat := by
  have h2op : dictGet? (mapAt (ensureKey d e.operation_id [])
        e.operation_id
        (fun inner => ensureKey inner cat_e EvaluationResult.NOT_EVALUATED.name))
        e.operation_id
      = some (ensureKey ((dictGet? d e.operation_id).getD []) cat_e
          EvaluationResult.NOT_EVALUATED.name) := by
    rw [dictGet?_mapAt, if_pos rfl, ensureKey_get]
    rfl
  have h2other : ∀ op, ¬op = e.operation_id →
      dictGet? (mapAt (ensureKey d e.operation_id [])
        e.operation_id
        (fun inner => ensureKey inner cat_e EvaluationResult.NOT_EVALUATED.name)) op
      = dictGet? d op := by
    intro op hop
    rw [dictGet?_mapAt, if_neg hop, ensureKey_get_other d _ _ _ hop]
  have hcur : dictGetD (dictGetD (mapAt (ensureKey d e.operation_id [])
        e.operation_id
        (fun inner => ensureKey inner cat_e EvaluationResult.NOT_EVALUATED.name))
        e.operation_id []) cat_e ""
      = (dictGet? ((dictGet? d e.operation_id).getD []) cat_e).getD
          EvaluationResult.NOT_EVALUATED.name := by
    unfold dictGetD
    rw [h2op]
    simp only [Option.getD_some]
    rw [ensureKey_get]
    simp
  have hdecode : EvaluationResult.ofName
        ((dictGet? ((dictGet? d e.operation_id).getD []) cat_e).getD
          EvaluationResult.NOT_EVALUATED.name)
      = some ((aggLookup d e.operation_id cat_e).getD .NOT_EVALUATED) := by
    cases hic : dictGet? ((dictGet? d e.operation_id).getD []) cat_e with
    | none =>
      have hagg : aggLookup d e.operation_id cat_e = none := by
        unfold aggLookup
        rw [dictGet2?_eq, hic]
      rw [hagg]
      simp only [Option.getD_none]
      exact ofName_name .NOT_EVALUATED
    | some nm =>
      have hv := hvalid e.operation_id cat_e nm (by rw [dictGet2?_eq, hic])
      cases hofn : EvaluationResult.ofName nm with
      | none => rw [hofn] at hv; cases hv
      | some r =>
        have hagg : aggLookup d e.operation_id cat_e = some r := by
          unfold aggLookup
          rw [dictGet2?_eq, hic]
          exact hofn
        rw [hagg]
        simp only [Option.getD_some]
        exact hofn
  have hstrNeg : ∀ op cat,
      dictGet2? (mapAt (ensureKey d e.operation_id []) e.operation_id
        (fun inner => ensureKey inner cat_e EvaluationResult.NOT_EVALUATED.name))
        op cat
      = if op = e.operation_id ∧ cat = cat_e
        then some ((dictGet? ((dictGet? d e.operation_id).getD []) cat_e).getD
            EvaluationResult.NOT_EVALUATED.name)
        else dictGet2? d op cat := by
    intro op cat
    by_cases hop : op = e.operation_id
    · subst hop
      rw [dictGet2?_eq, h2op]
      simp only [Option.getD_some]
      by_cases hcatc : cat = cat_e
      · subst hcatc
        rw [ensureKey_get]
        simp
      · rw [ensureKey_get_other _ _ _ _ hcatc, dictGet2?_eq d]
        simp [hcatc]
    · rw [dictGet2?_eq, h2other op hop, dictGet2?_eq d]
      simp [hop]
  have hstrPos : ∀ op cat,
      dictGet2? (mapAt (mapAt (ensureKey d e.operation_id []) e.operation_id
          (fun inner => ensureKey inner cat_e EvaluationResult.NOT_EVALUATED.name))
        e.operation_id (fun inner => dictSet inner cat_e e.result.name)) op cat
      = if op = e.operation_id ∧ cat = cat_e then some e.result.name
        else dictGet2? d op cat := by
    intro op cat
    by_cases hop : op = e.operation_id
    · subst hop
      rw [dictGet2?_eq, dictGet?_mapAt, if_pos rfl, h2op]
      simp only [Option.map_some', Option.getD_some]
      rw [dictGet?_dictSet]
      by_cases hcatc : cat = cat_e
      · subst hcatc
        simp
      · rw [if_neg hcatc, ensureKey_get_other _ _ _ _ hcatc, dictGet2?_eq d]
        simp [hcatc]
    · rw [dictGet2?_eq, dictGet?_mapAt, if_neg hop, h2other op hop, dictGet2?_eq d]
      simp [hop]
  generalize hcurg : (aggLookup d e.operation_id cat_e).getD
      EvaluationResult.NOT_EVALUATED = cur at hdecode ⊢
  by_cases hgt : e.result.value > cur.value
  · have hrun : stepAgg d e
        = .ok (mapAt (mapAt (ensureKey d e.operation_id []) e.operation_id
            (fun inner => ensureKey inner cat_e EvaluationResult.NOT_EVALUATED.name))
          e.operation_id (fun inner => dictSet inner cat_e e.result.name)) := by
      simp only [stepAgg, hcat]
      rw [hcur, hdecode]
      dsimp only
      rw [if_pos hgt]
    refine ⟨_, hrun, ?_, ?_⟩
    · intro op cat nm h
      rw [hstrPos op cat] at h
      by_cases hoc : op = e.operation_id ∧ cat = cat_e
      · rw [if_pos hoc] at h
        have hnm : nm = e.result.name := (Option.some.inj h).symm
        rw [hnm, ofName_name]
        rfl
      · rw [if_neg hoc] at h
        exact hvalid op cat nm h
    · intro op cat
      by_cases hoc : op = e.operation_id ∧ cat = cat_e
      · rw [if_pos hoc, aggLookup_eq, hstrPos op cat, if_pos hoc]
        dsimp only
        rw [ofName_name]
        unfold severityMax
        rw [if_pos hgt]
      · rw [if_neg hoc, aggLookup_eq, hstrPos op cat, if_neg hoc, aggLookup_eq]
  · have hrun : stepAgg d e
        = .ok (mapAt (ensureKey d e.operation_id []) e.operation_id
            (fun inner => ensureKey inner cat_e EvaluationResult.NOT_EVALUATED.name)) := by
      simp only [stepAgg, hcat]
      rw [hcur, hdecode]
      dsimp only
      rw [if_neg hgt]
    refine ⟨_, hrun, ?_, ?_⟩
    · intro op cat nm h
      rw [hstrNeg op cat] at h
      by_cases hoc : op = e.operation_id ∧ cat = cat_e
      · rw [if_pos hoc] at h
        have hnm := (Option.some.inj h).symm
        rw [hnm, hdecode]
        rfl
      · rw [if_neg hoc] at h
        exact hvalid op cat nm h
    · intro op cat
      by_cases hoc : op = e.operation_id ∧ cat = cat_e
      · rw [if_pos hoc, aggLookup_eq, hstrNeg op cat, if_pos hoc]
        dsimp only
        rw [hdecode]
        unfold severityMax
        rw [if_neg hgt]
      · rw [if_neg hoc, aggLookup_eq, hstrNeg op cat, if_neg hoc, aggLookup_eq]

/-- Accumulated aggregation value for one (operation, category) cell:
`none` while the cell does not exist, then the running strict max. -/
def aggFold (prev : Option EvaluationResult) :
    List EvaluationResult → Option EvaluationResult
  | [] => prev
  | r :: rs => aggFold (some (severityMax (prev.getD .NOT_EVALUATED) r)) rs

theorem aggFold_some (rs : List EvaluationResult) :
    ∀ x : EvaluationResult, aggFold (some x) rs = some (rs.foldl severityMax x) := by
  induction rs with
  | nil => intro x; rfl
  | cons r rs ih =>
    intro x
    simp only [aggFold, Option.getD_some, List.foldl_cons]
    exact ih _

/-- Does an evaluation belong to the (operation, category) cell? -/
def evalMatches (op cat : String) (e : Evaluation) : Bool :=
  decide (e.operation_id = op) && decide (layerCategory e = some cat)

theorem summarise_foldlM (evs : List Evaluation) :
    ∀ s : Summary, validAgg s.aggregated_layer_results_by_operation →
      (∀ e ∈ evs, (layerCategory e).isSome) →
      ∃ s', evs.foldlM summarise_step s = .ok s'
        ∧ s'.totals_by_result = evs.foldl stepTotals s.totals_by_result
        ∧ validAgg s'.aggregated_layer_results_by_operation
        ∧ ∀ op cat, aggLookup s'.aggregated_layer_results_by_operation op cat
            = aggFold (aggLookup s.aggregated_layer_results_by_operation op cat)
                ((evs.filter (evalMatches op cat)).map (fun e => e.result)) := by
  induction evs with
  | nil =>
    intro s hvalid _
    exact ⟨s, rfl, rfl, hvalid, fun op cat => rfl⟩
  | cons e rest ih =>
    intro s hvalid hconf
    have hcats : (layerCategory e).isSome := hconf e (List.mem_cons_self e rest)
    cases hcat : layerCategory e with
    | none => rw [hcat] at hcats; cases hcats
    | some cat_e =>
      obtain ⟨agg', hstep, hvalid', hchar⟩ :=
        stepAgg_spec s.aggregated_layer_results_by_operation e cat_e hcat hvalid
      have hss : summarise_step s e
          = .ok ⟨stepTotals s.totals_by_result e,
              stepByOp s.totals_by_result_by_operation e, agg'⟩ := by
        unfold summarise_step
        rw [hstep]
      obtain ⟨s', hfold, htot, hval, hagg⟩ :=
        ih ⟨stepTotals s.totals_by_result e,
            stepByOp s.totals_by_result_by_operation e, agg'⟩ hvalid'
          (fun e' he' => hconf e' (List.mem_cons_of_mem e he'))
      refine ⟨s', ?_, ?_, hval, ?_⟩
      · simp only [List.foldlM_cons]
        rw [hss, except_bind_ok]
        exact hfold
      · rw [htot]
        rfl
      · intro op cat
        rw [hagg op cat]
        show aggFold (aggLookup agg' op cat) _ = _
        rw [hchar op cat]
        by_cases hoc : op = e.operation_id ∧ cat = cat_e
        · have hmatch : evalMatches op cat e = true := by
            unfold evalMatches
            rw [hoc.1, hcat, hoc.2]
            simp
          rw [if_pos hoc, List.filter_cons_of_pos hmatch]
          rw [hoc.1, hoc.2]
          rfl
        · have hmatch : evalMatches op cat e = false := by
            have hnot : ¬(e.operation_id = op ∧ some cat_e = some cat) :=
              fun hcon => hoc ⟨hcon.1.symm, (Option.some.inj hcon.2).symm⟩
            unfold evalMatches
            rw [hcat]
            simpa using fun h1 h2 => hnot ⟨h1, h2⟩
          rw [if_neg hoc, List.filter_cons_of_neg (by simp [hmatch])]

theorem validAgg_nil : validAgg [] := by
  intro op cat nm h
  simp [dictGet2?, dictGet?] at h

/-- Per-result bump of the five-key totals dict performed by one iteration. -/
theorem stepTotals_five (a b c d5 e5 : Nat) (ev : Evaluation) :
    stepTotals
      [(EvaluationResult.NOT_EVALUATED.name, a),
       (EvaluationResult.PASS.name, b),
       (EvaluationResult.PASS_WITH_WARNINGS.name, c),
       (EvaluationResult.FAIL.name, d5),
       (EvaluationResult.ERROR.name, e5)] ev
    = [(EvaluationResult.NOT_EVALUATED.name,
          a + if ev.result = .NOT_EVALUATED then 1 else 0),
       (EvaluationResult.PASS.name, b + if ev.result = .PASS then 1 else 0),
       (EvaluationResult.PASS_WITH_WARNINGS.name,
          c + if ev.result = .PASS_WITH_WARNINGS then 1 else 0),
       (EvaluationResult.FAIL.name, d5 + if ev.result = .FAIL then 1 else 0),
       (EvaluationResult.ERROR.name, e5 + if ev.result = .ERROR then 1 else 0)] := by
  cases hres : ev.result <;>
    simp [stepTotals, dictIncr, mapAt, EvaluationResult.name, hres]

theorem totals_foldl (evs : List Evaluation) :
    ∀ a b c d5 e5 : Nat,
      evs.foldl stepTotals
        [(EvaluationResult.NOT_EVALUATED.name, a),
         (EvaluationResult.PASS.name, b),
         (EvaluationResult.PASS_WITH_WARNINGS.name, c),
         (EvaluationResult.FAIL.name, d5),
         (EvaluationResult.ERROR.name, e5)]
      = [(EvaluationResult.NOT_EVALUATED.name,
            a + evs.countP (fun e => decide (e.result = .NOT_EVALUATED))),
         (EvaluationResult.PASS.name,
            b + evs.countP (fun e => decide (e.result = .PASS))),
         (EvaluationResult.PASS_WITH_WARNINGS.name,
            c + evs.countP (fun e => decide (e.result = .PASS_WITH_WARNINGS))),
         (EvaluationResult.FAIL.name,
            d5 + evs.countP (fun e => decide (e.result = .FAIL))),
         (EvaluationResult.ERROR.name,
            e5 + evs.countP (fun e => decide (e.result = .ERROR)))] := by
  induction evs with
  | nil => intro a b c d5 e5; simp
  | cons ev rest ih =>
    intro a b c d5 e5
    rw [List.foldl_cons, stepTotals_five, ih]
    cases hres : ev.result <;>
      simp only [List.countP_cons, hres, decide_True, decide_False, if_pos,
        if_neg, List.cons.injEq, Prod.mk.injEq, true_and, and_true,
        if_true, if_false, reduceCtorEq, reduceIte] <;>
      omega

theorem countP_five_sum (evs : List Evaluation) :
    evs.countP (fun e => decide (e.result = .NOT_EVALUATED))
    + evs.countP (fun e => decide (e.result = .PASS))
    + evs.countP (fun e => decide (e.result = .PASS_WITH_WARNINGS))
    + evs.countP (fun e => decide (e.result = .FAIL))
    + evs.countP (fun e => decide (e.result = .ERROR)) = evs.length := by
  induction evs with
  | nil => rfl
  | cons ev rest ih =>
    cases hres : ev.result <;> simp [List.countP_cons, hres] <;> omega

/-- Counterexample to claim C7 as universally stated: an evaluation whose
layer id has no second '-'-token makes summarise_evaluations raise IndexError,
returning no totals mapping at all. -/
theorem c7_counterexample :
    summarise_evaluations [⟨"op1", ⟨"abc", []⟩, .PASS⟩] = .error .indexError := rfl

/-- Claim C7 amended: for every list of evaluations whose layer ids all have a
second '-'-token, summarise_evaluations succeeds and its totals_by_result has
exactly the five fixed keys in order, each key counting the evaluations with
that result, the five counts summing to the number of evaluations. -/
theorem c7_amended (evs : List Evaluation)
    (hconf : ∀ e ∈ evs, (layerCategory e).isSome) :
    ∃ s, summarise_evaluations evs = .ok s
      ∧ s.totals_by_result.map Prod.fst
          = [EvaluationResult.NOT_EVALUATED.name, EvaluationResult.PASS.name,
             EvaluationResult.PASS_WITH_WARNINGS.name, EvaluationResult.FAIL.name,
             EvaluationResult.ERROR.name]
      ∧ (∀ r : EvaluationResult, dictGet? s.totals_by_result r.name
            = some (evs.countP (fun e => decide (e.result = r))))
      ∧ (s.totals_by_result.map Prod.snd).sum = evs.length := by
  obtain ⟨s, hok, htot, _, _⟩ :=
    summarise_foldlM evs ⟨fiveZeroTotals, [], []⟩ validAgg_nil hconf
  have htot5 : s.totals_by_result
      = [(EvaluationResult.NOT_EVALUATED.name,
            evs.countP (fun e => decide (e.result = .NOT_EVALUATED))),
         (EvaluationResult.PASS.name,
            evs.countP (fun e => decide (e.result = .PASS))),
         (EvaluationResult.PASS_WITH_WARNINGS.name,
            evs.countP (fun e => decide (e.result = .PASS_WITH_WARNINGS))),
         (EvaluationResult.FAIL.name,
            evs.countP (fun e => decide (e.result = .FAIL))),
         (EvaluationResult.ERROR.name,
            evs.countP (fun e => decide (e.result = .ERROR)))] := by
    rw [htot]
    show evs.foldl stepTotals
      [(EvaluationResult.NOT_EVALUATED.name, 0), (EvaluationResult.PASS.name, 0),
       (EvaluationResult.PASS_WITH_WARNINGS.name, 0),
       (EvaluationResult.FAIL.name, 0), (EvaluationResult.ERROR.name, 0)] = _
    rw [totals_foldl]
    simp
  refine ⟨s, hok, ?_, ?_, ?_⟩
  · rw [htot5]
    rfl
  · intro r
    rw [htot5]
    cases r <;>
      simp [dictGet?, List.find?_cons, EvaluationResult.name]
  · rw [htot5]
    have hsum := countP_five_sum evs
    simp only [List.map_cons, List.map_nil, List.sum_cons, List.sum_nil]
    omega

/-- Concrete single conforming evaluation for the C7 witness. -/
def c7_evs : List Evaluation := [⟨"op1", ⟨"ma-admn-a1", []⟩, .PASS⟩]

/-- Witness for the amended C7 at a concrete conforming evaluation list. -/
theorem c7_amended_witness :
    (layerCategory ⟨"op1", ⟨"ma-admn-a1", []⟩, EvaluationResult.PASS⟩).isSome = true
    ∧ (summarise_evaluations c7_evs).map
        (fun s => dictGet? s.totals_by_result "PASS") = .ok (some 1) := by
  refine ⟨rfl, ?_⟩
  obtain ⟨s, hok, _, hget, _⟩ := c7_amended c7_evs (by decide)
  rw [hok]
  have h1 := hget .PASS
  have hcount : c7_evs.countP (fun e => decide (e.result = .PASS)) = 1 := rfl
  rw [hcount] at h1
  simp only [Except.map]
  exact congrArg Except.ok h1

theorem eq_NE_of_value_le : ∀ r : EvaluationResult,
    r.value ≤ EvaluationResult.NOT_EVALUATED.value → r = .NOT_EVALUATED := by
  decide

/-- Evaluations of the claim C8 example: layer ids `admn-a` and `admn-b`. -/
def c8_evs : List Evaluation :=
  [⟨"X", ⟨"admn-a", []⟩, .PASS⟩, ⟨"X", ⟨"admn-b", []⟩, .FAIL⟩]

/-- Counterexample to claim C8's example: for operation X with layers `admn-a`
(PASS) and `admn-b` (FAIL), the second '-'-token categories are "a" and "b",
so the aggregation has no "admn" category at all; the cells are
a = PASS and b = FAIL. -/
theorem c8_counterexample :
    summarise_evaluations c8_evs
      = .ok ⟨[("NOT_EVALUATED", 0), ("PASS", 1), ("PASS_WITH_WARNINGS", 0),
              ("FAIL", 1), ("ERROR", 0)],
          [("X", [("NOT_EVALUATED", 0), ("PASS", 1), ("PASS_WITH_WARNINGS", 0),
                  ("FAIL", 1), ("ERROR", 0)])],
          [("X", [("a", "PASS"), ("b", "FAIL")])]⟩
    ∧ dictGet2? [("X", [("a", "PASS"), ("b", "FAIL")])] "X" "admn" = none :=
  ⟨rfl, rfl⟩

/-- Claim C8 amended: under the conformity hypothesis,
aggregated_layer_results_by_operation maps each (operation id, category) cell
that some evaluation touches to the most severe result among that operation's
evaluations whose layer's second '-'-token is that category, and has no cell
no evaluation touches. (The claim's example ids `admn-a`, `admn-b` fall in
categories "a" and "b"; ids with the category as second token, such as
`ma-admn-a`, `ma-admn-b`, give category "admn" aggregate FAIL.) -/
theorem c8_amended (evs : List Evaluation)
    (hconf : ∀ e ∈ evs, (layerCategory e).isSome) :
    ∃ s, summarise_evaluations evs = .ok s
      ∧ ∀ op cat,
          (evs.filter (evalMatches op cat) = [] →
            aggLookup s.aggregated_layer_results_by_operation op cat = none)
          ∧ (evs.filter (evalMatches op cat) ≠ [] →
            ∃ m : EvaluationResult,
              aggLookup s.aggregated_layer_results_by_operation op cat = some m
              ∧ m ∈ (evs.filter (evalMatches op cat)).map (fun e => e.result)
              ∧ ∀ r ∈ (evs.filter (evalMatches op cat)).map (fun e => e.result),
                  r.value ≤ m.value) := by
  obtain ⟨s, hok, _, _, hagg⟩ :=
    summarise_foldlM evs ⟨fiveZeroTotals, [], []⟩ validAgg_nil hconf
  refine ⟨s, hok, fun op cat => ⟨?_, ?_⟩⟩
  · intro hempty
    rw [hagg op cat, hempty]
    rfl
  · intro hne
    rw [hagg op cat]
    obtain ⟨r0, rs, hcons⟩ : ∃ r0 rs,
        (evs.filter (evalMatches op cat)).map (fun e => e.result) = r0 :: rs := by
      cases hm : (evs.filter (evalMatches op cat)).map (fun e => e.result) with
      | nil => exact absurd (List.map_eq_nil_iff.mp hm) hne
      | cons a l => exact ⟨a, l, rfl⟩
    rw [hcons]
    refine ⟨(r0 :: rs).foldl severityMax .NOT_EVALUATED, ?_, ?_, ?_⟩
    · rw [show aggLookup ([] : List (String × List (String × String))) op cat
          = none from rfl]
      show aggFold (some (severityMax (Option.getD none .NOT_EVALUATED) r0)) rs = _
      rw [aggFold_some]
      rfl
    · rcases foldl_severityMax_mem (r0 :: rs) .NOT_EVALUATED with hf | hf
      · have hr0 : r0.value ≤ ((r0 :: rs).foldl severityMax .NOT_EVALUATED).value :=
          foldl_severityMax_mem_le _ _ r0 (by simp)
        rw [hf] at hr0
        have hr0NE : r0 = .NOT_EVALUATED := eq_NE_of_value_le r0 hr0
        rw [hf, ← hr0NE]
        simp
      · exact hf
    · intro r hr
      exact foldl_severityMax_mem_le _ _ r hr

/-- Conforming evaluations for the C8 witness: same intent as the claim's
example, with ids whose second token is the category "admn". -/
def c8_w_evs : List Evaluation :=
  [⟨"X", ⟨"ma-admn-a", []⟩, .PASS⟩, ⟨"X", ⟨"ma-admn-b", []⟩, .FAIL⟩]

/-- Witness for the amended C8: the "admn" cell of operation X aggregates to
FAIL (the most severe of PASS and FAIL). -/
theorem c8_amended_witness :
    (summarise_evaluations c8_w_evs).map
      (fun s => aggLookup s.aggregated_layer_results_by_operation "X" "admn")
      = .ok (some .FAIL) := by
  obtain ⟨s, hok, hcells⟩ := c8_amended c8_w_evs (by decide)
  obtain ⟨m, hm, hmem, hub⟩ := (hcells "X" "admn").2 (by decide)
  have hmap : (c8_w_evs.filter (evalMatches "X" "admn")).map (fun e => e.result)
      = [.PASS, .FAIL] := rfl
  rw [hmap] at hmem hub
  have hFAIL := hub .FAIL (by simp)
  have hmF : m = .FAIL := by
    have hcases : m = .PASS ∨ m = .FAIL := by simpa using hmem
    rcases hcases with h | h
    · subst h
      exact absurd hFAIL (by decide)
    · exact h
  rw [hok]
  simp only [Except.map]
  rw [hm, hmF]

/-- Fields of the dict returned by `Operation.export`. -/
structure OperationExport where
  affected_country_iso3 : String
  affected_country_name : String
  id : String
  name : String
deriving DecidableEq, Repr

/-- Operation.export: reads `affected_country.alpha_3`; when the country
lookup stored None this is `None.alpha_3`, an AttributeError. -/
def Operation.export (o : Operation) : Except PyError OperationExport :=
  match o.affected_country with
  | none => .error .attributeError
  | some c => .ok ⟨c.alpha_3, c.name, o.operation_id, o.operation_name⟩

/-- Modelled from the spec: the tool version string (the package
`__version__`, whose defining module is not under src/); a constant of the
build, identical across invocations. -/
def app_version : String := "0.1.0"

/-- Entry of a results_by_result bucket: dict with operation and layer ids. -/
structure OpLayerRef where
  operation_id : String
  layer_id : String
deriving DecidableEq, Repr

/-- Entry of the flat ungrouped results list. -/
structure UngroupedResult where
  operation_id : String
  layer_id : String
  result : String
deriving DecidableEq, Repr

/-- Fixed display labels for result types. -/
def display_labels_result_types : List (String × String) :=
  [("NOT_EVALUATED", "Not Evaluated"), ("PASS", "Pass"),
   ("PASS_WITH_WARNINGS", "Warning"), ("FAIL", "Fail"), ("ERROR", "Error")]

/-- Fixed display labels for layer aggregation categories. -/
def display_labels_layer_aggregation_categories : List (String × String) :=
  [("admn", "Admin"), ("carto", "Cartographic"), ("elev", "Elevation"),
   ("phys", "Physical features"), ("stle", "Settlements"), ("tran", "Transport")]

/-- The export document assembled by prepare_export (meta and data fields
flattened into one structure). -/
structure ExportDocument where
  app_version : String
  export_version : Int
  export_datetime : String
  display_labels_result_types : List (String × String)
  display_labels_layer_aggregation_categories : List (String × String)
  operations : List OperationExport
  operations_by_id : List (String × OperationExport)
  countries : List (String × String)
  results_by_operation : List (String × List (String × String))
  results_by_layer : List (String × List (String × String))
  results_by_result : List (String × List OpLayerRef)
  ungrouped_results : List UngroupedResult
  summary_statistics : Summary
deriving DecidableEq, Repr

/-- The `_results_by_operation` dict built by prepare_export's evaluation
loop: per operation, per layer, the result name. -/
def results_by_operation_of (evs : List Evaluation) :
    List (String × List (String × String)) :=
  evs.foldl (fun d ev =>
    mapAt (ensureKey d ev.operation_id []) ev.operation_id
      (fun inner => dictSet inner ev.layer.layer_id ev.result.name)) []

/-- The `_results_by_layer` dict: per layer, per operation, the result name. -/
def results_by_layer_of (evs : List Evaluation) :
    List (String × List (String × String)) :=
  evs.foldl (fun d ev =>
    mapAt (ensureKey d ev.layer.layer_id []) ev.layer.layer_id
      (fun inner => dictSet inner ev.operation_id ev.result.name)) []

/-- Initial `_results_by_result` dict: the five result names, empty buckets. -/
def initResultsByResult : List (String × List OpLayerRef) :=
  [(EvaluationResult.NOT_EVALUATED.name, []),
   (EvaluationResult.PASS.name, []),
   (EvaluationResult.PASS_WITH_WARNINGS.name, []),
   (EvaluationResult.FAIL.name, []),
   (EvaluationResult.ERROR.name, [])]

/-- The `_results_by_result` dict: bucket each evaluation under its result. -/
def results_by_result_of (evs : List Evaluation) :
    List (String × List OpLayerRef) :=
  evs.foldl (fun d ev =>
    mapAt d ev.result.name
      (fun bucket => bucket ++ [⟨ev.operation_id, ev.layer.layer_id⟩]))
    initResultsByResult

/-- The `_ungrouped_results` flat list. -/
def ungrouped_results_of (evs : List Evaluation) : List UngroupedResult :=
  evs.map (fun ev => ⟨ev.operation_id, ev.layer.layer_id, ev.result.name⟩)

/-- Loop body of prepare_export's first loop: export one operation into the
operations list, the by-id index and the country index. -/
def export_operations_step
    (acc : List OperationExport × List (String × OperationExport)
      × List (String × String)) (op : Operation) :
    Except PyError (List OperationExport × List (String × OperationExport)
      × List (String × String)) :=
  match Operation.export op with
  | .error e => .error e
  | .ok ex => .ok (acc.1 ++ [ex], dictSet acc.2.1 op.operation_id ex,
      dictSet acc.2.2 ex.affected_country_iso3 ex.affected_country_name)

/-- prepare_export: assemble the export document from the evaluations, the
summary and the operations. The Python loop body appends to the four
evaluation-derived structures in one pass; the structures are independent, so
building each with its own pass is observationally identical. The wall-clock
read `datetime.utcnow().isoformat(timespec="milliseconds")` is modelled by
the explicit `now` input. -/
def prepare_export (evaluations : List Evaluation)
    (summary_evaluations : Summary) (operations : List Operation)
    (now : String) : Except PyError ExportDocument :=
  match operations.foldlM export_operations_step ([], [], []) with
  | .error e => .error e
  | .ok opsAcc =>
    .ok ⟨app_version, 1, now,
      display_labels_result_types, display_labels_layer_aggregation_categories,
      opsAcc.1, opsAcc.2.1, opsAcc.2.2,
      results_by_operation_of evaluations,
      results_by_layer_of evaluations,
      results_by_result_of evaluations,
      ungrouped_results_of evaluations,
      summary_evaluations⟩

/-- Empty summary used by the C9 counterexample. -/
def emptySummary : Summary := ⟨fiveZeroTotals, [], []⟩

/-- Counterexample to claim C9: two invocations of prepare_export on the same
evaluations, summary and operations but at different clock readings produce
different export documents (meta.export_datetime embeds the clock). -/
theorem c9_counterexample :
    prepare_export [] emptySummary [] "2021-02-22T10:00:00.000"
      ≠ prepare_export [] emptySummary [] "2021-02-22T10:00:00.001" := by
  have h1 : prepare_export [] emptySummary [] "2021-02-22T10:00:00.000"
      = .ok ⟨app_version, 1, "2021-02-22T10:00:00.000",
          display_labels_result_types,
          display_labels_layer_aggregation_categories,
          [], [], [], [], [], initResultsByResult, [], emptySummary⟩ := rfl
  have h2 : prepare_export [] emptySummary [] "2021-02-22T10:00:00.001"
      = .ok ⟨app_version, 1, "2021-02-22T10:00:00.001",
          display_labels_result_types,
          display_labels_layer_aggregation_categories,
          [], [], [], [], [], initResultsByResult, [], emptySummary⟩ := rfl
  intro h
  rw [h1, h2] at h
  have hdoc := Except.ok.inj h
  have hdt := congrArg ExportDocument.export_datetime hdoc
  exact absurd hdt (by decide)

/-- Claim C9 amended: prepare_export does no I/O beyond the clock read for
meta.export_datetime; with the clock reading made an explicit input it is a
pure function, and two invocations on the same evaluations, summary and
operations agree on every field except export_datetime. -/
theorem c9_amended (evaluations : List Evaluation)
    (summary_evaluations : Summary) (operations : List Operation)
    (t1 t2 : String) :
    (prepare_export evaluations summary_evaluations operations t1).map
        (fun d => { d with export_datetime := "" })
      = (prepare_export evaluations summary_evaluations operations t2).map
        (fun d => { d with export_datetime := "" }) := by
  unfold prepare_export
  cases operations.foldlM export_operations_step ([], [], []) with
  | error e => rfl
  | ok opsAcc => rfl

theorem summarise_ok_totals (evs : List Evaluation) :
    ∀ s0 s : Summary, evs.foldlM summarise_step s0 = .ok s →
      s.totals_by_result = evs.foldl stepTotals s0.totals_by_result := by
  induction evs with
  | nil =>
    intro s0 s h
    simp only [List.foldlM_nil] at h
    cases h
    rfl
  | cons e rest ih =>
    intro s0 s h
    simp only [List.foldlM_cons] at h
    cases hstep : summarise_step s0 e with
    | error err => rw [hstep, except_bind_error] at h; cases h
    | ok s1 =>
      rw [hstep, except_bind_ok] at h
      have h1 := ih s1 s h
      unfold summarise_step at hstep
      cases hagg : stepAgg s0.aggregated_layer_results_by_operation e with
      | error err => rw [hagg] at hstep; cases hstep
      | ok agg =>
        rw [hagg] at hstep
        cases hstep
        rw [h1]
        rfl

theorem results_by_result_of_error_empty (evs : List Evaluation)
    (h : ∀ ev ∈ evs, ¬ev.result.name = EvaluationResult.ERROR.name) :
    dictGet? (results_by_result_of evs) EvaluationResult.ERROR.name = some [] := by
  have hgen : ∀ (l : List Evaluation) (d : List (String × List OpLayerRef)),
      (∀ ev ∈ l, ¬ev.result.name = EvaluationResult.ERROR.name) →
      dictGet? (l.foldl (fun d ev =>
        mapAt d ev.result.name
          (fun bucket => bucket ++ [⟨ev.operation_id, ev.layer.layer_id⟩])) d)
        EvaluationResult.ERROR.name
      = dictGet? d EvaluationResult.ERROR.name := by
    intro l
    induction l with
    | nil => intro d _; rfl
    | cons ev rest ih =>
      intro d hl
      rw [List.foldl_cons]
      rw [ih _ (fun e he => hl e (List.mem_cons_of_mem ev he))]
      rw [dictGet?_mapAt,
        if_neg (fun hk => hl ev (List.mem_cons_self ev rest) hk.symm)]
  unfold results_by_result_of
  rw [hgen evs initResultsByResult h]
  rfl

/-- Claim C10: the ERROR result is unreachable. After process_evaluations on
evaluations generated from layers, every result is PASS, PASS_WITH_WARNINGS or
FAIL; hence whenever summarise_evaluations succeeds its totals_by_result maps
ERROR to 0, and prepare_export's results_by_result ERROR bucket is empty. -/
theorem c10_error_unreachable (operation_layers : List (String × List MapLayer)) :
    (∀ ev ∈ process_evaluations (generate_evaluations operation_layers),
        ev.result = .PASS ∨ ev.result = .PASS_WITH_WARNINGS ∨ ev.result = .FAIL)
    ∧ (∀ s : Summary, summarise_evaluations
          (process_evaluations (generate_evaluations operation_layers)) = .ok s →
        dictGet? s.totals_by_result EvaluationResult.ERROR.name = some 0)
    ∧ dictGet? (results_by_result_of
          (process_evaluations (generate_evaluations operation_layers)))
        EvaluationResult.ERROR.name = some [] := by
  have hP : ∀ ev ∈ process_evaluations (generate_evaluations operation_layers),
      ev.result = .PASS ∨ ev.result = .PASS_WITH_WARNINGS ∨ ev.result = .FAIL := by
    intro ev hev
    rcases List.mem_map.mp hev with ⟨ev₀, hev₀, heval⟩
    rcases (mem_generate_evaluations _ ev₀).mp hev₀ with ⟨p, _, l, _, hinit⟩
    rw [← heval, hinit]
    by_cases hemp : l.errors = []
    · left
      rw [evaluate_result_eq p.1 l, hemp]
      rfl
    · have hmem := evaluate_nonempty_mem p.1 l hemp
      rcases List.mem_map.mp hmem with ⟨err, _, herr⟩
      rcases error_mapping_cases err with hc | hc
      · right; left; rw [← herr, hc]
      · right; right; rw [← herr, hc]
  have hnE : ∀ ev ∈ process_evaluations (generate_evaluations operation_layers),
      ¬ev.result.name = EvaluationResult.ERROR.name := by
    intro ev hev
    rcases hP ev hev with h | h | h <;> rw [h] <;> decide
  refine ⟨hP, ?_, results_by_result_of_error_empty _ hnE⟩
  intro s hok
  have htot := summarise_ok_totals _ _ s hok
  rw [htot]
  have hcount : (process_evaluations
      (generate_evaluations operation_layers)).countP
      (fun e => decide (e.result = .ERROR)) = 0 := by
    rw [List.countP_eq_zero]
    intro ev hev
    rcases hP ev hev with h | h | h <;> rw [h] <;> decide
  show dictGet? ((process_evaluations (generate_evaluations operation_layers)).foldl
      stepTotals
      [(EvaluationResult.NOT_EVALUATED.name, 0), (EvaluationResult.PASS.name, 0),
       (EvaluationResult.PASS_WITH_WARNINGS.name, 0),
       (EvaluationResult.FAIL.name, 0), (EvaluationResult.ERROR.name, 0)])
    EvaluationResult.ERROR.name = some 0
  rw [totals_foldl, hcount]
  simp [dictGet?, List.find?_cons, EvaluationResult.name]

/-- Witness for C10 at a concrete one-layer dict. -/
theorem c10_error_unreachable_witness :
    (summarise_evaluations (process_evaluations (generate_evaluations
        [("op1", [⟨"ma-admn-a1", ([] : List MapChefError)⟩])]))).map
      (fun s => dictGet? s.totals_by_result "ERROR") = .ok (some 0) := by
  have h := (c10_error_unreachable
    [("op1", [⟨"ma-admn-a1", ([] : List MapChefError)⟩])]).2.1
  have hok : summarise_evaluations (process_evaluations (generate_evaluations
      [("op1", [⟨"ma-admn-a1", ([] : List MapChefError)⟩])]))
      = .ok ⟨[("NOT_EVALUATED", 0), ("PASS", 1), ("PASS_WITH_WARNINGS", 0),
              ("FAIL", 0), ("ERROR", 0)],
          [("op1", [("NOT_EVALUATED", 0), ("PASS", 1), ("PASS_WITH_WARNINGS", 0),
              ("FAIL", 0), ("ERROR", 0)])],
          [("op1", [("admn", "PASS")])]⟩ := rfl
  rw [hok]
  simp only [Except.map]
  exact congrArg Except.ok (h _ hok)

end Rds
